import Mathlib

/-!
Verification of the CUP (Computer Use Protocol) python-sdk core against its
specification.  The Python sources under src/cup are shallowly embedded:
dicts become structures, the tree of node dicts becomes a mutual inductive,
float scores become rationals, and the stateful public entry points return
values in an explicit exception monad.  Each claim of the specification is
stated and settled as a theorem about these definitions.
-/

namespace CUP

/-! ## Python string helpers

String primitives used by the sources, modelled on their ASCII fragment:
`str.lower` is mapped char-wise (full Unicode case folding and NFD accent
stripping lie outside the model), `str.strip` trims whitespace, slicing
`s[:n]` takes the first `n` code points, and `str.split(sep)` for a
one-character separator keeps empty pieces.  All are implemented over
`List Char` so that they reduce inside the kernel.
-/

def pyLower (s : String) : String := String.mk (s.toList.map Char.toLower)

def pyTake (s : String) (n : Nat) : String := String.mk (s.toList.take n)

def pyLen (s : String) : Nat := s.toList.length

def pyTrim (s : String) : String :=
  String.mk (((s.toList.dropWhile Char.isWhitespace).reverse.dropWhile Char.isWhitespace).reverse)

def splitOnCharAux (sep : Char) : List Char → List Char → List String
  | [], acc => [String.mk acc.reverse]
  | c :: cs, acc =>
    if c = sep then String.mk acc.reverse :: splitOnCharAux sep cs []
    else splitOnCharAux sep cs (c :: acc)

def pySplitChar (s : String) (sep : Char) : List String := splitOnCharAux sep s.toList []

/-- Join a list of strings with a separator: Python `sep.join(xs)`. -/
def pyJoin (sep : String) : List String → String
  | [] => ""
  | x :: xs => xs.foldl (fun acc y => acc ++ sep ++ y) x

/-- Char-wise form of the escaping chain used on names in `_format_line`:
`.replace(backslash, two backslashes)`, then `.replace(quote,
backslash-quote)`, then `.replace(newline, space)`.  The sequential
replaces touch disjoint characters, so the chain equals this single pass. -/
def escNameChar (c : Char) : List Char :=
  if c = '\\' then ['\\', '\\']
  else if c = '"' then ['\\', '"']
  else if c = '\n' then [' ']
  else [c]

def escName (s : String) : String := String.mk (s.toList.flatMap escNameChar)

/-- Char-wise form of `.replace(quote, backslash-quote).replace(newline, space)`
used on values and placeholders in `_format_line` (no backslash doubling). -/
def escValChar (c : Char) : List Char :=
  if c = '"' then ['\\', '"']
  else if c = '\n' then [' ']
  else [c]

def escVal (s : String) : String := String.mk (s.toList.flatMap escValChar)

/-! ## Data model (spec section 3; nodes are dicts in the Python source)

A CUP node dict is embedded as `Node`.  Absent optional keys are conflated
with their `dict.get` defaults (empty string, empty list); this is
observation-equivalent for every function in `format.py` and `search.py`,
all of which read fields through `.get` with those defaults.  The
`_clipped` key that pruning may attach is the `clipped` field; an input
tree normally has `clipped = none` everywhere.  An empty `children` list
is conflated with an absent `children` key, again matching every read
site (`node.get("children", [])`).
-/

structure Rect where
  x : Int
  y : Int
  w : Int
  h : Int
deriving DecidableEq, Repr

structure ClipCounts where
  above : Nat
  below : Nat
  left : Nat
  right : Nat
deriving DecidableEq, Repr

/-- The `attributes` sub-dict, restricted to the keys the serializer and
search read (`level`, `placeholder`, `orientation`, `valueMin`,
`valueMax`).  `valueMin` and `valueMax` are kept pre-rendered as strings
(the source only ever interpolates them into output text). -/
structure NodeAttrs where
  level : Option Int
  placeholder : Option String
  orientation : Option String
  valueMin : Option String
  valueMax : Option String
deriving DecidableEq, Repr

def NodeAttrs.empty : NodeAttrs := ⟨none, none, none, none, none⟩

/-- Python truthiness of the `attributes` dict (`if attrs:`). -/
def NodeAttrs.isEmpty (a : NodeAttrs) : Bool :=
  a.level.isNone && a.placeholder.isNone && a.orientation.isNone
    && a.valueMin.isNone && a.valueMax.isNone

mutual
inductive Node where
  | mk (id : String) (role : String) (name : String) (description : String)
       (value : String) (states : List String) (actions : List String)
       (bounds : Option Rect) (attrs : NodeAttrs) (clipped : Option ClipCounts)
       (children : NodeList)
deriving DecidableEq

inductive NodeList where
  | nil
  | cons (head : Node) (tail : NodeList)
deriving DecidableEq
end

@[simp] def Node.id : Node → String
  | .mk i _ _ _ _ _ _ _ _ _ _ => i

@[simp] def Node.role : Node → String
  | .mk _ r _ _ _ _ _ _ _ _ _ => r

@[simp] def Node.name : Node → String
  | .mk _ _ n _ _ _ _ _ _ _ _ => n

@[simp] def Node.description : Node → String
  | .mk _ _ _ d _ _ _ _ _ _ _ => d

@[simp] def Node.value : Node → String
  | .mk _ _ _ _ v _ _ _ _ _ _ => v

@[simp] def Node.states : Node → List String
  | .mk _ _ _ _ _ s _ _ _ _ _ => s

@[simp] def Node.actions : Node → List String
  | .mk _ _ _ _ _ _ a _ _ _ _ => a

@[simp] def Node.bounds : Node → Option Rect
  | .mk _ _ _ _ _ _ _ b _ _ _ => b

@[simp] def Node.attrs : Node → NodeAttrs
  | .mk _ _ _ _ _ _ _ _ a _ _ => a

@[simp] def Node.clipped : Node → Option ClipCounts
  | .mk _ _ _ _ _ _ _ _ _ c _ => c

@[simp] def Node.children : Node → NodeList
  | .mk _ _ _ _ _ _ _ _ _ _ cs => cs

def NodeList.length : NodeList → Nat
  | .nil => 0
  | .cons _ rest => rest.length + 1

def NodeList.append : NodeList → NodeList → NodeList
  | .nil, ys => ys
  | .cons x xs, ys => .cons x (NodeList.append xs ys)

def NodeList.toList : NodeList → List Node
  | .nil => []
  | .cons n rest => n :: rest.toList

def NodeList.ofList : List Node → NodeList
  | [] => .nil
  | n :: ns => .cons n (NodeList.ofList ns)

/-- Convenience constructor mirroring the test fixture `_make_node`: only
`id` and `role` are mandatory, everything else defaults like `dict.get`. -/
def mkNode (id role : String) (name : String := "") (description : String := "")
    (value : String := "") (states : List String := []) (actions : List String := [])
    (bounds : Option Rect := none) (attrs : NodeAttrs := .empty)
    (clipped : Option ClipCounts := none) (children : List Node := []) : Node :=
  Node.mk id role name description value states actions bounds attrs clipped
    (NodeList.ofList children)

/-- Positional variant of `mkNode` for fixtures that also set actions,
bounds and children. -/
def mkNodeF (id role name : String) (actions : List String) (bounds : Option Rect)
    (children : List Node) : Node :=
  Node.mk id role name "" "" [] actions bounds .empty none (NodeList.ofList children)

/-! ## `src/cup/format.py` — vocabulary tables and prune predicates -/

def CHROME_ROLES : List String := ["scrollbar", "separator", "titlebar", "tooltip", "status"]

def ROLE_CODES : List (String × String) :=
  [("alert", "alrt"), ("alertdialog", "adlg"), ("application", "app"),
   ("banner", "bnr"), ("button", "btn"), ("cell", "cel"), ("checkbox", "chk"),
   ("columnheader", "colh"), ("combobox", "cmb"), ("complementary", "cmp"),
   ("contentinfo", "ci"), ("dialog", "dlg"), ("document", "doc"),
   ("form", "frm"), ("generic", "gen"), ("grid", "grd"), ("group", "grp"),
   ("heading", "hdg"), ("img", "img"), ("link", "lnk"), ("list", "lst"),
   ("listitem", "li"), ("log", "log"), ("main", "main"), ("marquee", "mrq"),
   ("menu", "mnu"), ("menubar", "mnub"), ("menuitem", "mi"),
   ("menuitemcheckbox", "mic"), ("menuitemradio", "mir"),
   ("navigation", "nav"), ("none", "none"), ("option", "opt"),
   ("progressbar", "pbar"), ("radio", "rad"), ("region", "rgn"),
   ("row", "row"), ("rowheader", "rowh"), ("scrollbar", "sb"),
   ("search", "srch"), ("searchbox", "sbx"), ("separator", "sep"),
   ("slider", "sld"), ("spinbutton", "spn"), ("status", "sts"),
   ("switch", "sw"), ("tab", "tab"), ("table", "tbl"), ("tablist", "tabs"),
   ("tabpanel", "tpnl"), ("text", "txt"), ("textbox", "tbx"),
   ("timer", "tmr"), ("titlebar", "ttlb"), ("toolbar", "tlbr"),
   ("tooltip", "ttp"), ("tree", "tre"), ("treeitem", "ti"), ("window", "win")]

def STATE_CODES : List (String × String) :=
  [("busy", "bsy"), ("checked", "chk"), ("collapsed", "col"),
   ("disabled", "dis"), ("editable", "edt"), ("expanded", "exp"),
   ("focused", "foc"), ("hidden", "hid"), ("mixed", "mix"), ("modal", "mod"),
   ("multiselectable", "msel"), ("offscreen", "off"), ("pressed", "prs"),
   ("readonly", "ro"), ("required", "req"), ("selected", "sel")]

def ACTION_CODES : List (String × String) :=
  [("click", "clk"), ("collapse", "col"), ("decrement", "dec"),
   ("dismiss", "dsm"), ("doubleclick", "dbl"), ("expand", "exp"),
   ("focus", "foc"), ("increment", "inc"), ("longpress", "lp"),
   ("rightclick", "rclk"), ("scroll", "scr"), ("select", "sel"),
   ("setvalue", "sv"), ("toggle", "tog"), ("type", "typ")]

/-- `table.get(key, key)` on a short-code dict. -/
def codeOf (table : List (String × String)) (k : String) : String :=
  (table.lookup k).getD k

/-- `[a for a in node.get("actions", []) if a != "focus"]`. -/
def meaningfulActions (n : Node) : List String :=
  n.actions.filter (fun a => a != "focus")

/-- `_should_skip(node, parent, siblings)` from format.py.  The source is a
chain of early `return True`s, written here as the equivalent disjunction,
one disjunct per rule in source order. -/
def should_skip (node : Node) (parent : Option Node) (siblings : Nat) : Bool :=
  CHROME_ROLES.contains node.role
    || (match node.bounds with
        | some b => b.w == 0 || b.h == 0
        | none => false)
    || (node.states.contains "offscreen" && (meaningfulActions node).isEmpty)
    || (node.role == "img" && node.name == "")
    || (node.role == "text" && node.name == "")
    || (node.role == "text"
        && (match parent with
            | some p => p.name != ""
            | none => false)
        && siblings == 1)

/-- `_should_hoist(node)` from format.py, as the equivalent disjunction of
its early `return True`s. -/
def should_hoist (node : Node) : Bool :=
  (node.role == "generic" && node.name == "")
    || (node.role == "region" && node.name == "")
    || (node.role == "group" && node.name == "" && (meaningfulActions node).isEmpty)

/-- `_is_outside_viewport(child_bounds, viewport)`. -/
def is_outside_viewport (b vp : Rect) : Bool :=
  decide (b.x + b.w ≤ vp.x) || decide (b.x ≥ vp.x + vp.w)
    || decide (b.y + b.h ≤ vp.y) || decide (b.y ≥ vp.y + vp.h)

/-- `_clip_direction(child_bounds, viewport)`. -/
def clip_direction (b vp : Rect) : String :=
  if b.y + b.h ≤ vp.y then "above"
  else if b.y ≥ vp.y + vp.h then "below"
  else if b.x + b.w ≤ vp.x then "left"
  else "right"

/-- `_is_scrollable(node)`. -/
def is_scrollable (n : Node) : Bool := n.actions.contains "scroll"

/-- `_intersect_viewports(bounds, viewport)`. -/
def intersect_viewports (b : Rect) (vp : Option Rect) : Rect :=
  match vp with
  | none => b
  | some v =>
    let x1 := max b.x v.x
    let y1 := max b.y v.y
    let x2 := min (b.x + b.w) (v.x + v.w)
    let y2 := min (b.y + b.h) (v.y + v.h)
    ⟨x1, y1, max 0 (x2 - x1), max 0 (y2 - y1)⟩

mutual
/-- `_count_nodes` from format.py: `count_node n` counts the subtree of a
single node, `count_list` a forest. -/
def count_node : Node → Nat
  | .mk _ _ _ _ _ _ _ _ _ _ cs => 1 + count_list cs

def count_list : NodeList → Nat
  | .nil => 0
  | .cons n rest => count_node n + count_list rest
end

def COLLAPSIBLE_ROLES : List String :=
  ["region", "document", "main", "complementary", "navigation", "search",
   "banner", "contentinfo", "form"]

/-- `_has_meaningful_actions(node)`. -/
def has_meaningful_actions (n : Node) : Bool :=
  n.actions.any (fun a => a != "focus")

/-- The clip test applied to each child in `_prune_node`:
`child_viewport and child_bounds and _is_outside_viewport(...)`. -/
def clip_test (vp : Option Rect) (c : Node) : Bool :=
  match vp, c.bounds with
  | some v, some b => is_outside_viewport b v
  | _, _ => false

/-- Direction bucket of a clipped child (only read when `clip_test` holds). -/
def clip_dir_of (vp : Option Rect) (c : Node) : String :=
  match vp, c.bounds with
  | some v, some b => clip_direction b v
  | _, _ => ""

/-- Total `_count_nodes([child])` over the clipped children falling in one
direction bucket — the per-direction counters of `_prune_node`. -/
def clipped_count (vp : Option Rect) (dir : String) : NodeList → Nat
  | .nil => 0
  | .cons c rest =>
    (if clip_test vp c && (clip_dir_of vp c == dir) then count_node c else 0)
      + clipped_count vp dir rest

def any_clipped (vp : Option Rect) : NodeList → Bool
  | .nil => false
  | .cons c rest => clip_test vp c || any_clipped vp rest

/-! ## `_prune_node` / `prune_tree`

`prune_node` returns the 0-or-more replacement nodes for one input node.
`prune_list_hoist` is the loop in the hoist branch (children are pruned
against the hoisted node's parent, with no clip test), `prune_list_kept`
the loop in the keep branch (children are clip-tested against the current
viewport, then pruned with the kept node as parent).  Both loops pass the
original child count as `siblings`, exactly as the source does.
-/

/-- The viewport handed to a kept node's children: `if _is_scrollable(node)
and node.get("bounds"): child_viewport = _intersect_viewports(...)`. -/
def child_viewport (node : Node) (viewport : Option Rect) : Option Rect :=
  match is_scrollable node, node.bounds with
  | true, some b => some (intersect_viewports b viewport)
  | _, _ => viewport

/-- The single-child structural collapse test of `_prune_node`. -/
def collapse_cond (node : Node) (pruned_children : NodeList) : Bool :=
  NodeList.length pruned_children == 1
    && COLLAPSIBLE_ROLES.contains node.role && node.name == ""
    && !(has_meaningful_actions node)

/-- The `_clipped` value attached to a kept node: fresh per-direction
counts when some child was clipped, else whatever the input node carried. -/
def clip_record (node : Node) (child_vp : Option Rect) : Option ClipCounts :=
  if any_clipped child_vp node.children then
    some ⟨clipped_count child_vp "above" node.children,
          clipped_count child_vp "below" node.children,
          clipped_count child_vp "left" node.children,
          clipped_count child_vp "right" node.children⟩
  else node.clipped

mutual
def prune_node : Node → Option Node → Nat → Option Rect → NodeList
  | node@(.mk i r nm d vl st ac bd a0 _ cs), parent, siblings, viewport =>
    if should_hoist node then
      prune_list_hoist cs parent (NodeList.length cs) viewport
    else if should_skip node parent siblings then
      NodeList.nil
    else
      let child_vp := child_viewport node viewport
      let pruned_children := prune_list_kept cs node (NodeList.length cs) child_vp
      if collapse_cond node pruned_children then
        pruned_children
      else
        NodeList.cons
          (Node.mk i r nm d vl st ac bd a0 (clip_record node child_vp) pruned_children)
          NodeList.nil

def prune_list_hoist : NodeList → Option Node → Nat → Option Rect → NodeList
  | .nil, _, _, _ => .nil
  | .cons c rest, parent, siblings, viewport =>
    NodeList.append (prune_node c parent siblings viewport)
      (prune_list_hoist rest parent siblings viewport)

def prune_list_kept : NodeList → Node → Nat → Option Rect → NodeList
  | .nil, _, _, _ => .nil
  | .cons c rest, parentNode, siblings, child_vp =>
    if clip_test child_vp c then
      prune_list_kept rest parentNode siblings child_vp
    else
      NodeList.append (prune_node c (some parentNode) siblings child_vp)
        (prune_list_kept rest parentNode siblings child_vp)
end

/-- The `screen` dict of an envelope (`{w, h, scale?}`); `scale` is a float
in the source, embedded as a rational. -/
structure Screen where
  w : Int
  h : Int
  scale : Option Rat
deriving DecidableEq

def prune_roots : NodeList → Nat → Option Rect → NodeList
  | .nil, _, _ => .nil
  | .cons rootN rest, len, vp =>
    NodeList.append (prune_node rootN none len vp) (prune_roots rest len vp)

/-- `prune_tree(tree, detail=..., screen=...)` from format.py.  The
`detail = "full"` branch returns `copy.deepcopy(tree)`, which is
value-identical to `tree`. -/
def prune_tree (tree : NodeList) (detail : String := "compact")
    (screen : Option Screen := none) : NodeList :=
  if detail == "full" then tree
  else
    let screen_vp : Option Rect :=
      match screen with
      | some s => some ⟨0, 0, s.w, s.h⟩
      | none => none
    prune_roots tree (NodeList.length tree) screen_vp

mutual
/-- Restriction under which compact pruning is proved idempotent: no node
has role "text" (the only skip rule that depends on sibling counts) and no
node is a scrollable container with bounds (so no viewport is created). -/
def tame_node : Node → Bool
  | .mk _ r _ _ _ _ ac bd _ _ cs =>
    r != "text" && !(ac.contains "scroll" && bd.isSome) && tame_list cs

def tame_list : NodeList → Bool
  | .nil => true
  | .cons n rest => tame_node n && tame_list rest
end

/-- A node that a second compact pruning pass maps to itself, whatever
parent and sibling count it is examined under. -/
def self_stable (m : Node) : Prop :=
  ∀ parent sib, prune_node m parent sib none = NodeList.cons m NodeList.nil

mutual
/-- No node of the tree satisfies `_should_hoist` (restriction for the
amended viewport invariant: hoisted wrappers let their children bypass the
clip test of `_prune_node`). -/
def no_hoist_node : Node → Bool
  | n@(.mk _ _ _ _ _ _ _ _ _ _ cs) => !(should_hoist n) && no_hoist_list cs

def no_hoist_list : NodeList → Bool
  | .nil => true
  | .cons n rest => no_hoist_node n && no_hoist_list rest
end

mutual
/-- Every bounds rect in the tree has non-negative width and height, as
the data model of the spec prescribes for captured nodes. -/
def wf_bounds_node : Node → Bool
  | .mk _ _ _ _ _ _ _ bd _ _ cs =>
    (match bd with
     | some b => decide (0 ≤ b.w) && decide (0 ≤ b.h)
     | none => true) && wf_bounds_list cs

def wf_bounds_list : NodeList → Bool
  | .nil => true
  | .cons n rest => wf_bounds_node n && wf_bounds_list rest
end

/-- A rectangle with positive area (a non-empty intersection). -/
def rect_nonempty (r : Rect) : Bool := decide (0 < r.w) && decide (0 < r.h)

/-- `intersect(a, b)` of two rects, via the same clamped-intersection code
the source uses (`_intersect_viewports` against a present viewport). -/
def inter_rect (b v : Rect) : Rect := intersect_viewports b (some v)

/-- Rect containment, coordinatewise. -/
def rect_sub (a b : Rect) : Prop :=
  b.x ≤ a.x ∧ b.y ≤ a.y ∧ a.x + a.w ≤ b.x + b.w ∧ a.y + a.h ≤ b.y + b.h

mutual
/-- The viewport invariant of the spec, evaluated over a pruned forest:
`anc` carries the effective viewport of every scroll-ancestor with bounds
(its bounds successively intersected with the ancestral viewports), and
`vp` the innermost effective viewport.  A node with bounds must intersect
every ancestral effective viewport in a non-empty rect. -/
def viewport_inv_node (anc : List Rect) (vp : Option Rect) : Node → Bool
  | n@(.mk _ _ _ _ _ _ _ bd _ _ cs) =>
    (match bd with
     | some b => anc.all (fun v => rect_nonempty (inter_rect b v))
     | none => true)
    && (match is_scrollable n, bd with
        | true, some b =>
          viewport_inv_list (anc ++ [intersect_viewports b vp])
            (some (intersect_viewports b vp)) cs
        | _, _ => viewport_inv_list anc vp cs)

def viewport_inv_list (anc : List Rect) (vp : Option Rect) : NodeList → Bool
  | .nil => true
  | .cons n rest => viewport_inv_node anc vp n && viewport_inv_list anc vp rest
end

/-- The invariant package carried along a pruning descent: an empty
viewport stack when no viewport is active, every stacked ancestral
viewport containing the innermost one, and the innermost one non-empty. -/
def vp_inv (anc : List Rect) (vp : Option Rect) : Prop :=
  (vp = none → anc = [])
    ∧ (∀ v ∈ anc, ∀ v0, vp = some v0 → rect_sub v0 v)
    ∧ (∀ v0, vp = some v0 → rect_nonempty v0 = true)

/-- The guarantee a caller of `_prune_node` established for the node it
recurses into: if a viewport is active and the node has bounds, the clip
test has already ruled the node not entirely outside. -/
def caller_ok (n : Node) (vp : Option Rect) : Prop :=
  ∀ b v0, n.bounds = some b → vp = some v0 → is_outside_viewport b v0 = false

/-! ## `_format_line` and `_emit_compact` -/

def VALUE_ROLES : List String := ["textbox", "searchbox", "combobox", "spinbutton", "slider"]

def natStr (n : Nat) : String := toString n

def intStr (i : Int) : String := toString i

/-- Quoted-name part of `_format_line` (`if name: parts.append(...)`). -/
def fl_name_parts (node : Node) : List String :=
  if node.name != "" then
    ["\"" ++ escName (pyTake node.name 80 ++ (if pyLen node.name > 80 then "..." else ""))
      ++ "\""]
  else []

/-- Bounds part of `_format_line` (`if bounds and actions: ...`, where
`actions` is the focus-filtered list). -/
def fl_bounds_parts (node : Node) : List String :=
  match node.bounds with
  | some b =>
    if meaningfulActions node != [] then
      [intStr b.x ++ "," ++ intStr b.y ++ " " ++ intStr b.w ++ "x" ++ intStr b.h]
    else []
  | none => []

/-- States part of `_format_line`. -/
def fl_states_parts (node : Node) : List String :=
  if node.states != [] then
    ["\x7b" ++ pyJoin "," (node.states.map (codeOf STATE_CODES)) ++ "\x7d"]
  else []

/-- Actions part of `_format_line` (`if actions: parts.append(...)` on the
focus-filtered list). -/
def fl_actions_parts (node : Node) : List String :=
  if meaningfulActions node != [] then
    ["[" ++ pyJoin "," ((meaningfulActions node).map (codeOf ACTION_CODES)) ++ "]"]
  else []

/-- Value part of `_format_line` (input-type roles only). -/
def fl_value_parts (node : Node) : List String :=
  if node.value != "" && VALUE_ROLES.contains node.role then
    ["val=\"" ++ escVal (pyTake node.value 120
      ++ (if pyLen node.value > 120 then "..." else "")) ++ "\""]
  else []

/-- Compact-attributes part of `_format_line`. -/
def fl_attr_parts (node : Node) : List String :=
  if !(node.attrs.isEmpty) then
    let a := node.attrs
    let p1 := match a.level with
              | some l => ["L" ++ intStr l]
              | none => []
    let p2 := match a.placeholder with
              | some ph => ["ph=\"" ++ escVal (pyTake ph 30) ++ "\""]
              | none => []
    let p3 := match a.orientation with
              | some o => [pyTake o 1]
              | none => []
    let p4 := if a.valueMin.isSome || a.valueMax.isSome then
                ["range=" ++ a.valueMin.getD "" ++ ".." ++ a.valueMax.getD ""]
              else []
    let attr_parts := p1 ++ p2 ++ p3 ++ p4
    if attr_parts != [] then ["(" ++ pyJoin " " attr_parts ++ ")"] else []
  else []

/-- The `parts` list assembled by `_format_line(node)`, in source order:
id/role, quoted name, bounds, states, actions, value, attributes. -/
def format_line_parts (node : Node) : List String :=
  ["[" ++ node.id ++ "]", codeOf ROLE_CODES node.role]
    ++ fl_name_parts node ++ fl_bounds_parts node ++ fl_states_parts node
    ++ fl_actions_parts node ++ fl_value_parts node ++ fl_attr_parts node

/-- `_format_line(node)` from format.py. -/
def format_line (node : Node) : String := pyJoin " " (format_line_parts node)

/-- Python `s * n` for strings (indentation `"  " * depth`). -/
def strRepeat (s : String) (n : Nat) : String := pyJoin "" (List.replicate n s)

/-- The hint lines `_emit_compact` appends after a node's children when the
node carries `_clipped` counts. -/
def clip_hint_lines (node : Node) (depth : Nat) : List String :=
  match node.clipped with
  | none => []
  | some cl =>
    let v_total := cl.above + cl.below
    let h_total := cl.left + cl.right
    let total := v_total + h_total
    if total > 0 then
      let directions :=
        (if cl.above > 0 then ["up"] else [])
          ++ (if cl.below > 0 then ["down"] else [])
          ++ (if cl.left > 0 then ["left"] else [])
          ++ (if cl.right > 0 then ["right"] else [])
      [strRepeat "  " (depth + 1) ++ "# " ++ natStr total ++ " more items — scroll "
        ++ pyJoin "/" directions ++ " to see"]
    else []

mutual
/-- `_emit_compact(node, depth, lines, counter)`: returns the lines this
node contributes and the number of counted nodes. -/
def emit_node : Node → Nat → List String × Nat
  | node@(.mk _ _ _ _ _ _ _ _ _ _ cs), depth =>
    let childEmit := emit_forest cs (depth + 1)
    ((strRepeat "  " depth ++ format_line node) :: childEmit.1 ++ clip_hint_lines node depth,
      1 + childEmit.2)

def emit_forest : NodeList → Nat → List String × Nat
  | .nil, _ => ([], 0)
  | .cons n rest, depth =>
    let e1 := emit_node n depth
    let e2 := emit_forest rest depth
    (e1.1 ++ e2.1, e1.2 + e2.2)
end

/-! ## `build_envelope` and `serialize_compact` -/

/-- The `app` sub-dict of an envelope.  Keys absent from the dict are
conflated with the defaults `serialize_compact` reads through `.get`. -/
structure AppInfo where
  name : String
  pid : Option Int
  bundleId : String
deriving DecidableEq

structure Envelope where
  version : String
  platform : String
  timestamp : Int
  screen : Screen
  scope : Option String
  app : Option AppInfo
  tree : NodeList
  tools : Option (List String)
deriving DecidableEq

/-- `build_envelope(tree_data, ...)` from format.py.  `timestamp` is
`int(time.time() * 1000)` in the source — an external input, passed in
explicitly here.  Python truthiness of the optional string arguments
(`None` and the empty string are both falsy) is spelled out. -/
def build_envelope (tree_data : NodeList) (platform : String)
    (scope : Option String := none) (screen_w screen_h : Int)
    (screen_scale : Option Rat := none) (app_name : Option String := none)
    (app_pid : Option Int := none) (app_bundle_id : Option String := none)
    (tools : Option (List String) := none) (timestamp : Int := 0) : Envelope :=
  let screen : Screen :=
    { w := screen_w, h := screen_h,
      scale := match screen_scale with
               | some sc => if sc ≠ 1 then some sc else none
               | none => none }
  let nameTruthy : Bool := match app_name with
                           | some s => s != ""
                           | none => false
  let bundleTruthy : Bool := match app_bundle_id with
                             | some s => s != ""
                             | none => false
  let app : Option AppInfo :=
    if nameTruthy || app_pid.isSome || bundleTruthy then
      some { name := if nameTruthy then app_name.getD "" else "",
             pid := app_pid,
             bundleId := if bundleTruthy then app_bundle_id.getD "" else "" }
    else none
  { version := "0.1.0",
    platform := platform,
    timestamp := timestamp,
    screen := screen,
    scope := match scope with
             | some s => if s ≠ "" then some s else none
             | none => none,
    app := app,
    tree := tree_data,
    tools := match tools with
             | some (t :: ts) => some (t :: ts)
             | _ => none }

/-- A window descriptor as read by the `serialize_compact` header loop
(`win.get("title", "(untitled)")`, `win.get("foreground", False)`). -/
structure WinInfo where
  title : Option String
  foreground : Bool
deriving DecidableEq

/-- The string `output` of `serialize_compact` just before the hard
truncation safety net. -/
def serialize_untruncated (envelope : Envelope)
    (window_list : Option (List WinInfo)) (detail : String) : String :=
  let total_before := count_list envelope.tree
  let pruned := prune_tree envelope.tree detail (some envelope.screen)
  let emitted := emit_forest pruned 0
  let header1 := "# CUP " ++ envelope.version ++ " | " ++ envelope.platform ++ " | "
    ++ intStr envelope.screen.w ++ "x" ++ intStr envelope.screen.h
  let appLines := match envelope.app with
                  | some a => ["# app: " ++ a.name]
                  | none => []
  let countLine := "# " ++ natStr emitted.2 ++ " nodes (" ++ natStr total_before
    ++ " before pruning)"
  let toolLines := match envelope.tools with
                   | some l =>
                     if l.length != 0 then
                       ["# " ++ natStr l.length ++ " WebMCP tool"
                         ++ (if l.length != 1 then "s" else "") ++ " available"]
                     else []
                   | none => []
  let winLines := match window_list with
                  | some ws =>
                    if ws.length != 0 then
                      ("# --- " ++ natStr ws.length ++ " open windows ---")
                        :: ws.map (fun w => "#   " ++ pyTake (w.title.getD "(untitled)") 50
                             ++ (if w.foreground then " [fg]" else ""))
                    else []
                  | none => []
  let header_lines := [header1] ++ appLines ++ [countLine] ++ toolLines ++ winLines ++ [""]
  pyJoin "\n" (header_lines ++ emitted.1) ++ "\n"

/-- `truncated.rfind(newline)`: index of the last newline, or `-1`. -/
def pyRFindNl : List Char → Int
  | [] => -1
  | c :: cs =>
    let r := pyRFindNl cs
    if r ≥ 0 then r + 1
    else if c = '\n' then 0
    else -1

def MAX_OUTPUT_CHARS : Int := 40000

def TRUNC_FOOTER : String :=
  "\n\n# OUTPUT TRUNCATED — exceeded character limit.\n"
    ++ "# Use find(name=...) to locate specific elements instead.\n"
    ++ "# Or use snapshot_app(app=\x27<title>\x27) to target a specific window.\n"

/-- `serialize_compact(envelope, window_list=..., detail=..., max_chars=...)`
from format.py. -/
def serialize_compact (envelope : Envelope)
    (window_list : Option (List WinInfo) := none) (detail : String := "compact")
    (max_chars : Int := MAX_OUTPUT_CHARS) : String :=
  let output := serialize_untruncated envelope window_list detail
  if max_chars > 0 ∧ (pyLen output : Int) > max_chars then
    let truncated := pyTake output max_chars.toNat
    let last_nl := pyRFindNl truncated.toList
    let truncated2 := if last_nl > 0 then pyTake truncated last_nl.toNat else truncated
    truncated2 ++ TRUNC_FOOTER
  else output

/-! ## Concrete inputs used by counterexamples and witnesses -/

/-- Counterexample input for pruning idempotence: a named group whose two
children are a named text node and an unnamed (dropped) image.  The first
pass drops the image; the text node then becomes the sole child of a named
parent and is dropped only by a second pass. -/
def c2_tree : NodeList :=
  NodeList.ofList
    [mkNodeF "e0" "group" "P" [] none
      [mkNode "e1" "text" "a", mkNode "e2" "img" ""]]

/-- A tame tree (no text nodes, no scrollable-with-bounds nodes) that still
exercises hoisting and dropping, for the idempotence witness. -/
def c2_tame_tree : NodeList :=
  NodeList.ofList
    [mkNodeF "e0" "window" "App" [] none
      [mkNodeF "e1" "generic" "" [] none
         [mkNodeF "e2" "button" "OK" ["click", "focus"] none []],
       mkNode "e3" "img" ""]]

/-- Counterexample input for the viewport invariant: a scrollable list
whose only child is an unnamed generic wrapper holding a button that lies
entirely outside the list bounds.  Hoisting the wrapper makes the button a
direct child of the list without ever being clip-tested. -/
def c3_tree : NodeList :=
  NodeList.ofList
    [mkNodeF "e0" "list" "Items" ["scroll"] (some ⟨0, 0, 10, 10⟩)
      [mkNodeF "e1" "generic" "" [] none
        [mkNodeF "e2" "button" "X" ["click"] (some ⟨100, 100, 5, 5⟩) []]]]

/-- A hoist-free tree with a scrollable container, partially visible and
fully clipped children, for the viewport-invariant witness. -/
def c3_good_tree : NodeList :=
  NodeList.ofList
    [mkNodeF "e0" "list" "Items" ["scroll"] (some ⟨0, 0, 400, 200⟩)
      [mkNodeF "e1" "listitem" "Item 1" [] (some ⟨0, 0, 400, 50⟩) [],
       mkNodeF "e2" "listitem" "Partial" [] (some ⟨0, 180, 400, 50⟩) [],
       mkNodeF "e3" "listitem" "Far" [] (some ⟨0, 300, 400, 50⟩) []]]

/-- The operation claim C6 describes for over-long output: cut at the last
newline among the first `mc` characters, when one exists. -/
def last_nl_cut (out : String) (mc : Nat) : Option String :=
  let i := pyRFindNl (out.toList.take mc)
  if 0 ≤ i then some (pyTake out i.toNat) else none

/-- Envelope whose serialized text has no newline in its first 10
characters (counterexample input for the truncation claim). -/
def c6_env : Envelope := build_envelope NodeList.nil "windows" none 8 6

/-- Small one-button envelope for truncation witnesses. -/
def c6_env2 : Envelope :=
  build_envelope (NodeList.ofList [mkNode "e0" "button" "OK"]) "windows" none 8 6

/-! ## `src/cup/search.py` — tokenization and role resolution

Scores are Python floats; they are embedded as rationals (`Rat`), the
usual exact model: every literal weight in the source is a short decimal
and the claims are order comparisons.  `_tokenize` is modelled on its
ASCII fragment (lowercase, split on runs of characters outside `[a-z0-9]`,
drop empties); the NFD accent stripping only affects non-ASCII input and
lies outside the model.
-/

def charsStartsWith : List Char → List Char → Bool
  | [], _ => true
  | _ :: _, [] => false
  | a :: xs, b :: ys => a == b && charsStartsWith xs ys

def charsContains (needle : List Char) : List Char → Bool
  | [] => charsStartsWith needle []
  | c :: t => charsStartsWith needle (c :: t) || charsContains needle t

/-- Python `needle in hay` on strings. -/
def strContains (hay needle : String) : Bool := charsContains needle.toList hay.toList

def isTokChar (c : Char) : Bool := ('a' ≤ c && c ≤ 'z') || ('0' ≤ c && c ≤ '9')

def tokSplit : List Char → List Char → List String
  | [], acc => if acc.isEmpty then [] else [String.mk acc.reverse]
  | c :: cs, acc =>
    if isTokChar c then tokSplit cs (c :: acc)
    else if acc.isEmpty then tokSplit cs []
    else String.mk acc.reverse :: tokSplit cs []

/-- `_tokenize` (ASCII fragment). -/
def tokenize (s : String) : List String := tokSplit (pyLower s).toList []

/-- `ALL_ROLES` (a frozenset in the source; only membership is used). -/
def ALL_ROLES : List String :=
  ["alert", "alertdialog", "application", "banner", "blockquote", "button",
   "caption", "cell", "checkbox", "code", "columnheader", "combobox",
   "complementary", "contentinfo", "deletion", "dialog", "document",
   "emphasis", "figure", "form", "generic", "grid", "group", "heading",
   "img", "insertion", "link", "list", "listitem", "log", "main", "marquee",
   "math", "menu", "menubar", "menuitem", "menuitemcheckbox", "menuitemradio",
   "navigation", "none", "note", "option", "paragraph", "progressbar",
   "radio", "region", "row", "rowheader", "scrollbar", "search", "searchbox",
   "separator", "slider", "spinbutton", "status", "strong", "subscript",
   "superscript", "switch", "tab", "table", "tablist", "tabpanel", "text",
   "textbox", "timer", "titlebar", "toolbar", "tooltip", "tree", "treeitem",
   "window"]

/-- The literal entries of `ROLE_SYNONYMS` (values are frozensets in the
source; only membership and truthiness are used, so lists suffice). -/
def SYN_TABLE : List (String × List String) :=
  [("input", ["textbox", "combobox", "searchbox", "spinbutton", "slider"]),
   ("text input", ["textbox", "searchbox", "combobox"]),
   ("text field", ["textbox", "searchbox", "combobox"]),
   ("text box", ["textbox", "searchbox"]),
   ("textarea", ["textbox", "document"]),
   ("edit", ["textbox", "searchbox", "combobox", "document"]),
   ("editor", ["textbox", "document"]),
   ("search", ["search", "searchbox", "textbox", "combobox"]),
   ("search bar", ["search", "searchbox", "textbox", "combobox"]),
   ("search box", ["search", "searchbox", "textbox", "combobox"]),
   ("search field", ["search", "searchbox", "textbox", "combobox"]),
   ("search input", ["search", "searchbox", "textbox", "combobox"]),
   ("btn", ["button"]),
   ("clickable", ["button", "link", "menuitem", "tab", "treeitem", "listitem"]),
   ("hyperlink", ["link"]),
   ("anchor", ["link"]),
   ("dropdown", ["combobox", "menu", "list"]),
   ("select", ["combobox", "list", "listitem"]),
   ("combo", ["combobox"]),
   ("combo box", ["combobox"]),
   ("check", ["checkbox", "switch", "menuitemcheckbox"]),
   ("toggle", ["switch", "checkbox"]),
   ("radio button", ["radio", "menuitemradio"]),
   ("option", ["option", "radio", "listitem", "menuitemradio"]),
   ("range", ["slider", "progressbar", "spinbutton"]),
   ("progress", ["progressbar"]),
   ("progress bar", ["progressbar"]),
   ("spinner", ["spinbutton"]),
   ("tab bar", ["tablist"]),
   ("tab list", ["tablist"]),
   ("tabs", ["tablist", "tab"]),
   ("tab panel", ["tabpanel"]),
   ("menu bar", ["menubar"]),
   ("menu item", ["menuitem", "menuitemcheckbox", "menuitemradio"]),
   ("modal", ["dialog", "alertdialog"]),
   ("popup", ["dialog", "alertdialog", "tooltip", "menu"]),
   ("notification", ["alert", "status", "log"]),
   ("message", ["alert", "status", "log"]),
   ("title", ["heading", "titlebar"]),
   ("header", ["heading", "banner", "columnheader", "rowheader"]),
   ("image", ["img"]),
   ("picture", ["img"]),
   ("icon", ["img", "button"]),
   ("tree item", ["treeitem"]),
   ("list item", ["listitem"]),
   ("table", ["table", "grid"]),
   ("nav", ["navigation"]),
   ("sidebar", ["complementary", "navigation"]),
   ("panel", ["region", "group", "tabpanel"]),
   ("section", ["region", "group", "main"]),
   ("container", ["region", "group", "generic"]),
   ("divider", ["separator"]),
   ("scroll", ["scrollbar"]),
   ("status bar", ["status"]),
   ("tool bar", ["toolbar"])]

/-- `ROLE_SYNONYMS` lookup after the module-level `setdefault` loop added
an identity entry for every role not already a key (`setdefault` never
overrides, so the literal table wins on shared keys such as "search"). -/
def roleSynLookup (q : String) : Option (List String) :=
  match SYN_TABLE.lookup q with
  | some s => some s
  | none => if ALL_ROLES.contains q then some [q] else none

def NOISE_WORDS : List String :=
  ["the", "a", "an", "this", "that", "for", "in", "on", "of", "with", "to",
   "and", "or", "is", "it", "its", "my", "your"]

def firstTokenSyn : List String → Option (List String)
  | [] => none
  | t :: ts =>
    match roleSynLookup t with
    | some s => some s
    | none => firstTokenSyn ts

/-- `resolve_roles`: direct synonym lookup, then first-token fallback, then
(for queries of length ≥ 3) substring match against role names.  The
result is used only for membership and truthiness, so a list stands in
for the frozenset. -/
def resolve_roles (role_query : String) : Option (List String) :=
  let q := pyLower (pyTrim role_query)
  match roleSynLookup q with
  | some s => some s
  | none =>
    match firstTokenSyn (tokenize q) with
    | some s => some s
    | none =>
      if 3 ≤ pyLen q then
        let hits := ALL_ROLES.filter (fun r => strContains r q)
        if hits.isEmpty then none else some hits
      else none

/-- Candidate at one start position: `" ".join(tokens[start : start+len])`
tested as a `ROLE_SYNONYMS` key; starts are scanned left to right. -/
def findAtStarts (toks : List String) (len : Nat) : List Nat → Option (String × Nat)
  | [] => none
  | s :: rest =>
    let cand := pyJoin " " ((toks.drop s).take len)
    if (roleSynLookup cand).isSome then some (cand, s)
    else findAtStarts toks len rest

/-- Span search of `_parse_query`: lengths longest-first, then starts left
to right, first hit wins. -/
def findSpan (toks : List String) : List Nat → Option (String × Nat × Nat)
  | [] => none
  | L :: rest =>
    match findAtStarts toks L (List.range (toks.length - L + 1)) with
    | some (cand, s) => some (cand, s, L)
    | none => findSpan toks rest

/-- `_parse_query`: returns `(role_hint, name_tokens)`. -/
def parse_query (query : String) : Option String × List String :=
  let toks := tokenize query
  if toks.isEmpty then (none, [])
  else
    let m := min toks.length 3
    let lens := (List.range m).reverse.map (· + 1)
    match findSpan toks lens with
    | some (cand, s, L) =>
      (some cand,
       (toks.take s ++ toks.drop (s + L)).filter (fun t => !NOISE_WORDS.contains t))
    | none => (none, toks.filter (fun t => !NOISE_WORDS.contains t))

/-! ## `src/cup/search.py` — scoring, walking, ranking -/

/-- `_score_secondary`: best token-overlap ratio over description, value
and placeholder (duplicates in `query_tokens` each count, as in the
source's `sum`; the field token set is deduplicated). -/
def score_secondary (query_tokens : List String)
    (description value placeholder : String) : Rat :=
  [description, value, placeholder].foldl
    (fun best field =>
      if field = "" then best
      else
        let ftoks := (tokenize field).dedup
        if ftoks.isEmpty then best
        else
          let matched : Rat := ((query_tokens.filter (fun qt => ftoks.contains qt)).length : Rat)
          max best (matched / (query_tokens.length : Rat)))
    0

/-- `_score_name`: full-substring and token-level signals, exactness
bonus, secondary-field boost, capped at 1.  `set(_tokenize(name))` is
modelled by `dedup` (its cardinality feeds the overlap ratio). -/
def score_name (query_tokens : List String)
    (node_name node_description node_value placeholder : String) : Rat :=
  if query_tokens.isEmpty then 1
  else
    let query_joined := pyJoin " " query_tokens
    let name_lower := pyLower node_name
    let full_substr : Rat :=
      if strContains name_lower query_joined then
        (if query_joined = name_lower then 1 else 85/100)
      else 0
    let name_set := (tokenize node_name).dedup
    let token_score : Rat :=
      if name_set.isEmpty then 0
      else
        let matched : Rat := query_tokens.foldl
          (fun acc qt =>
            acc + (if name_set.contains qt then 1
              else if name_set.any (fun nt => charsStartsWith qt.toList nt.toList) then 7/10
              else if name_set.any (fun nt => charsStartsWith nt.toList qt.toList) then 5/10
              else if name_set.any (fun nt => strContains nt qt) then 6/10
              else 0))
          0
        matched / (query_tokens.length : Rat)
    let base := max full_substr token_score
    let name_score :=
      if !name_set.isEmpty && decide (0 < base) then
        let overlap : Rat :=
          (((query_tokens.dedup).filter (fun qt => name_set.contains qt)).length : Rat)
            / (max name_set.length 1 : Rat)
        base * (85/100 + 15/100 * overlap)
      else base
    let secondary := score_secondary query_tokens node_description node_value placeholder
    min 1 (name_score + secondary * (15/100))

/-- `_score_context`: ancestor-name and ancestor-role bonuses (at most
once each), interactivity, visibility and focus bonuses. -/
def score_context (n : Node) (parent_chain : List Node)
    (query_tokens : List String) (target_roles : Option (List String)) : Rat :=
  let s1 : Rat :=
    if !query_tokens.isEmpty
        && parent_chain.any (fun a => (tokenize a.name).any (fun t => query_tokens.contains t))
      then 1/10 else 0
  let s2 : Rat :=
    match target_roles with
    | some trs =>
      if !trs.isEmpty && parent_chain.any (fun a => trs.contains a.role) then 1/10 else 0
    | none => 0
  let s3 : Rat := if n.actions.any (fun a => a != "focus") then 1/20 else 0
  let s4 : Rat := if !n.states.contains "offscreen" then 1/20 else 0
  let s5 : Rat := if n.states.contains "focused" then 1/50 else 0
  s1 + s2 + s3 + s4 + s5

/-- `_score_node`: hard state and role filters, name score (hard filter
when name tokens are given and the raw score is 0), state bonus, context.
The `0.15 if target_roles else 0.0` credit tests frozenset truthiness,
hence the emptiness test on the resolved role list. -/
def score_node (n : Node) (parent_chain : List Node)
    (target_roles : Option (List String)) (name_tokens : List String)
    (state : Option String) : Rat :=
  if state.isSome && !(n.states.contains (state.getD "")) then 0
  else if target_roles.isSome && !((target_roles.getD []).contains n.role) then 0
  else
    let role_score : Rat := if target_roles.isSome then 35/100 else 0
    let name_score_res : Option Rat :=
      if !name_tokens.isEmpty then
        let raw := score_name name_tokens n.name n.description n.value
          (n.attrs.placeholder.getD "")
        if raw = 0 then none else some (raw * (50/100))
      else some (if !(target_roles.getD []).isEmpty then 15/100 else 0)
    match name_score_res with
    | none => 0
    | some name_score =>
      let state_score : Rat := if state.isSome then 1/10 else 0
      role_score + name_score + state_score
        + score_context n parent_chain name_tokens target_roles

/-- `SearchResult` (score kept as a rational). -/
structure SearchResult where
  node : Node
  score : Rat
deriving DecidableEq

/-- The dict copy `{k: v for k, v in node.items() if k != "children"}`:
all fields preserved, children emptied. -/
def strip_children : Node → Node
  | .mk i r nm d v sts acts bd a cl _ =>
    .mk i r nm d v sts acts bd a cl NodeList.nil

mutual
/-- `_walk_and_score` on one node: score it, keep it when
`score >= threshold` (children stripped), then recurse pre-order. -/
def walk_node : Node → List Node → Option (List String) → List String →
    Option String → Rat → List SearchResult
  | .mk i r nm d v sts acts bd a cl cs, pc, trs, ntoks, st, th =>
    let n := Node.mk i r nm d v sts acts bd a cl cs
    let score := score_node n pc trs ntoks st
    (if th ≤ score then [⟨strip_children n, score⟩] else [])
      ++ walk_list cs (pc ++ [n]) trs ntoks st th

def walk_list : NodeList → List Node → Option (List String) → List String →
    Option String → Rat → List SearchResult
  | .nil, _, _, _, _, _ => []
  | .cons n ns, pc, trs, ntoks, st, th =>
    walk_node n pc trs ntoks st th ++ walk_list ns pc trs ntoks st th
end

/-- Python truthiness of an optional string argument. -/
def optTruthy (o : Option String) : Bool := o.getD "" != ""

/-- The input-parsing phase of `search_tree`: effective role and name
tokens from `query` / `role` / `name`, and the resolved target roles. -/
def search_prep (query role name : Option String) :
    Option (List String) × List String :=
  let (effRole, effToks) :=
    if optTruthy query then
      let (pr, pn) := parse_query (query.getD "")
      ((if optTruthy role then role else pr),
       (if optTruthy name then tokenize (name.getD "") else pn))
    else if optTruthy name then (role, tokenize (name.getD ""))
    else (role, [])
  ((if optTruthy effRole then resolve_roles (effRole.getD "") else none), effToks)

/-- The walk phase of `search_tree`: pre-order scored results before
ranking. -/
def search_walked (tree : NodeList) (query role name state : Option String)
    (threshold : Rat) : List SearchResult :=
  let (trs, toks) := search_prep query role name
  walk_list tree [] trs toks state threshold

/-- The comparator of `results.sort(key=lambda r: -r.score)`: a stable
ascending sort by `-score`, i.e. a stable descending sort by score. -/
def scoreLe (a b : SearchResult) : Bool := decide (b.score ≤ a.score)

/-- `search_tree`.  `limit` is the Python slice `results[:limit]` on its
intended non-negative domain, hence a `Nat`. -/
def search_tree (tree : NodeList) (query role name state : Option String)
    (limit : Nat) (threshold : Rat) : List SearchResult :=
  ((search_walked tree query role name state threshold).mergeSort scoreLe).take limit

/-- One-button tree for the search witnesses. -/
def c4_tree : NodeList :=
  NodeList.ofList [mkNodeF "e0" "button" "OK" ["click", "focus"] none []]

/-! ## `src/cup/actions/_keys.py` and `_windows.py` — key combos -/

/-- `_ALIASES`. -/
def ALIASES : List (String × String) :=
  [("return", "enter"), ("esc", "escape"), ("del", "delete"),
   ("bs", "backspace"), ("cmd", "meta"), ("super", "meta"), ("win", "meta"),
   ("pgup", "pageup"), ("pgdn", "pagedown"), ("pgdown", "pagedown")]

/-- `_ALIASES.get(part, part)`. -/
def aliasOf (p : String) : String := (ALIASES.lookup p).getD p

/-- The four names `parse_combo` classifies as modifiers (the tuple in
`if normalized in ("ctrl", "alt", "shift", "meta")`). -/
def MODIFIER4 : List String := ["ctrl", "alt", "shift", "meta"]

/-- Loop body of `parse_combo`: append the normalized part to the
modifier or the key list. -/
def comboStep (acc : List String × List String) (part : String) :
    List String × List String :=
  let normalized := aliasOf part
  if MODIFIER4.contains normalized then (acc.1 ++ [normalized], acc.2)
  else (acc.1, acc.2 ++ [normalized])

/-- `parse_combo`: split on `+`, drop whitespace-only parts, strip and
lowercase, then classify each normalized part. -/
def parse_combo (combo : String) : List String × List String :=
  (((pySplitChar combo '+').filter (fun p => pyTrim p != "")).map
     (fun p => pyLower (pyTrim p))).foldl comboStep ([], [])

/-- `_MOD_TO_VK` (local table of `_send_key_combo`). -/
def MOD_TO_VK : List (String × Nat) :=
  [("ctrl", 0xA2), ("alt", 0xA4), ("shift", 0xA0), ("meta", 0x5B)]

/-- `VK_MAP` from `_windows.py`. -/
def VK_MAP : List (String × Nat) :=
  [("enter", 0x0D), ("return", 0x0D), ("tab", 0x09), ("escape", 0x1B),
   ("esc", 0x1B), ("backspace", 0x08), ("delete", 0x2E), ("space", 0x20),
   ("up", 0x26), ("down", 0x28), ("left", 0x25), ("right", 0x27),
   ("home", 0x24), ("end", 0x23), ("pageup", 0x21), ("pagedown", 0x22),
   ("f1", 0x70), ("f2", 0x71), ("f3", 0x72), ("f4", 0x73), ("f5", 0x74),
   ("f6", 0x75), ("f7", 0x76), ("f8", 0x77), ("f9", 0x78), ("f10", 0x79),
   ("f11", 0x7A), ("f12", 0x7B), ("ctrl", 0xA2), ("alt", 0xA4),
   ("shift", 0xA0), ("win", 0x5B), ("meta", 0x5B)]

/-- `ord(k.upper())` for a single-character key. -/
def ordUpper (k : String) : Nat := (Char.toUpper (k.toList.headD ' ')).toNat

/-- The VK-resolution phase of `_send_key_combo`: parse the combo, map
modifiers and main keys to virtual-key codes, and re-classify a
modifier-only combo as a main-key press. -/
def send_key_combo_resolve (keys_string : String) : List Nat × List Nat :=
  let (mod_names, key_names) := parse_combo keys_string
  let modifiers := (mod_names.filter (fun m => (MOD_TO_VK.lookup m).isSome)).map
    (fun m => (MOD_TO_VK.lookup m).getD 0)
  let main_keys := key_names.foldl
    (fun acc k =>
      match VK_MAP.lookup k with
      | some vk => acc ++ [vk]
      | none => if pyLen k = 1 then acc ++ [ordUpper k] else acc)
    []
  if !modifiers.isEmpty && main_keys.isEmpty then ([], modifiers)
  else (modifiers, main_keys)

/-! ## `src/cup/actions/executor.py` and `src/cup/__init__.py` — actions

Exceptions are modelled with `Except`: a Python function that may raise
returns `Except PyExn α`; a `try/except` block is a `match`.  Handlers
are platform code (COM, CGEvent, AT-SPI) outside the model, so the
executor is parametrized by handler functions that may themselves raise.
The handler receives the native element reference; references are
modelled by the element id that keys them in `_refs`, so `refs` is the
id list of the current snapshot.
-/

inductive PyExn where
  | attributeError (typeName attr : String)
deriving DecidableEq, Repr

/-- Python `str(exc)` for the exceptions the model raises. -/
def exnStr : PyExn → String
  | .attributeError t a =>
    "\x27" ++ t ++ "\x27 object has no attribute \x27" ++ a ++ "\x27"

/-- `ActionResult` from `executor.py`. -/
structure ActionResult where
  success : Bool
  message : String
  error : Option String
deriving DecidableEq, Repr

/-- `VALID_ACTIONS` (a frozenset; the source's literal is listed here in
its alphabetical `sorted` order, which the unknown-action error
interpolates). -/
def VALID_ACTIONS : List String :=
  ["click", "collapse", "decrement", "dismiss", "doubleclick", "expand",
   "focus", "increment", "longpress", "press_keys", "rightclick", "scroll",
   "select", "setvalue", "toggle", "type"]

/-- Python `repr` of `sorted(VALID_ACTIONS)`. -/
def VALID_ACTIONS_repr : String :=
  "[" ++ pyJoin ", " (VALID_ACTIONS.map (fun a => "\x27" ++ a ++ "\x27")) ++ "]"

/-- The callable attributes the `ActionExecutor` class body defines:
`set_refs`, `execute`, `press_keys`, `launch_app` (plus instance fields).
`Session` calls `self._executor.action`, `.press` and `.open_app`, none
of which exist; Python resolves the attribute before any call, raising
`AttributeError`. -/
def executorHasAttr (name : String) : Bool :=
  ["_adapter", "_refs", "_handler", "set_refs", "execute", "press_keys",
   "launch_app"].contains name

/-- `ActionExecutor.press_keys`: delegate to the handler, catching any
exception into a failure result. -/
def executorPressKeys (handlerPress : String → Except PyExn ActionResult)
    (combo : String) : ActionResult :=
  match handlerPress combo with
  | .ok r => r
  | .error e => ⟨false, "", some (exnStr e)⟩

/-- `ActionExecutor.launch_app`. -/
def executorLaunchApp (handlerLaunch : String → Except PyExn ActionResult)
    (name : String) : ActionResult :=
  match handlerLaunch name with
  | .ok r => r
  | .error e => ⟨false, "", some (exnStr e)⟩

/-- `ActionExecutor.execute`: validates the action name, the `press_keys`
pseudo-element, the ref table and the required parameters, then calls the
handler under `try/except`.  Total by construction: every path returns an
`ActionResult`. -/
def executorExecute
    (handlerExec : String → String → List (String × String) → Except PyExn ActionResult)
    (handlerPress : String → Except PyExn ActionResult)
    (refs : List String) (element_id action : String)
    (params : List (String × String)) : ActionResult :=
  if !VALID_ACTIONS.contains action then
    ⟨false, "", some ("Unknown action \x27" ++ action ++ "\x27. Valid: "
      ++ VALID_ACTIONS_repr)⟩
  else if action = "press_keys" then
    let keys := (params.lookup "keys").getD ""
    if keys = "" then
      ⟨false, "", some "Action \x27press_keys\x27 requires a \x27keys\x27 parameter"⟩
    else executorPressKeys handlerPress keys
  else if !refs.contains element_id then
    ⟨false, "", some ("Element \x27" ++ element_id
      ++ "\x27 not found in current tree snapshot")⟩
  else if (action = "type" || action = "setvalue")
      && (params.lookup "value").isNone then
    ⟨false, "", some ("Action \x27" ++ action ++ "\x27 requires a \x27value\x27 parameter")⟩
  else if action = "scroll"
      && !(match params.lookup "direction" with
           | some d => ["up", "down", "left", "right"].contains d
           | none => false) then
    ⟨false, "", some ("Action \x27scroll\x27 requires \x27direction\x27 "
      ++ "(up/down/left/right), got: "
      ++ (match params.lookup "direction" with
          | some d => "\x27" ++ d ++ "\x27"
          | none => "None"))⟩
  else
    match handlerExec element_id action params with
    | .ok r => r
    | .error e => ⟨false, "", some (exnStr e)⟩

/-- `Session.action`: `return self._executor.action(element_id, action,
params)` — the guarded branch is the dispatcher body the tests bind to
this name; the lookup fails first. -/
def sessionAction
    (handlerExec : String → String → List (String × String) → Except PyExn ActionResult)
    (handlerPress : String → Except PyExn ActionResult)
    (refs : List String) (element_id action : String)
    (params : List (String × String)) : Except PyExn ActionResult :=
  if executorHasAttr "action" then
    .ok (executorExecute handlerExec handlerPress refs element_id action params)
  else .error (.attributeError "ActionExecutor" "action")

/-- `Session.press`: `return self._executor.press(combo)`. -/
def sessionPress (handlerPress : String → Except PyExn ActionResult)
    (combo : String) : Except PyExn ActionResult :=
  if executorHasAttr "press" then .ok (executorPressKeys handlerPress combo)
  else .error (.attributeError "ActionExecutor" "press")

/-- `Session.open_app`: `return self._executor.open_app(name)`. -/
def sessionOpenApp (handlerLaunch : String → Except PyExn ActionResult)
    (name : String) : Except PyExn ActionResult :=
  if executorHasAttr "open_app" then .ok (executorLaunchApp handlerLaunch name)
  else .error (.attributeError "ActionExecutor" "open_app")

/-- One record of `Session.batch`.  String fields conflate an absent key
with the `dict.get` default `""` (only truthiness and equality are read);
`ms` keeps its numeric default explicit; `params` is the record minus
`element_id` and `action`. -/
structure BatchSpec where
  action : String
  ms : Option Int
  keys : String
  element_id : String
  params : List (String × String)
deriving DecidableEq, Repr

/-- The wait clamp of `Session.batch`: `max(50, min(int(ms), 5000))`. -/
def waitClamp (ms : Int) : Int := max 50 (min ms 5000)

/-- `Session.batch`: execute records in order; a missing `keys` or
`element_id` appends a failure and breaks (the same as a failed step);
a failed step is the last result; `time.sleep` is a no-op in the model;
exceptions raised by a step propagate out of `batch`. -/
def sessionBatch
    (handlerExec : String → String → List (String × String) → Except PyExn ActionResult)
    (handlerPress : String → Except PyExn ActionResult)
    (refs : List String) : List BatchSpec → Except PyExn (List ActionResult)
  | [] => .ok []
  | spec :: rest =>
    let step : Except PyExn ActionResult :=
      if spec.action = "wait" then
        let ms := waitClamp (spec.ms.getD 500)
        .ok ⟨true, "Waited " ++ intStr ms ++ "ms", none⟩
      else if spec.action = "press" then
        if spec.keys = "" then
          .ok ⟨false, "", some "press action requires \x27keys\x27 parameter"⟩
        else sessionPress handlerPress spec.keys
      else
        if spec.element_id = "" then
          .ok ⟨false, "", some ("Element action \x27" ++ spec.action
            ++ "\x27 requires \x27element_id\x27 parameter")⟩
        else sessionAction handlerExec handlerPress refs spec.element_id
          spec.action spec.params
    match step with
    | .error e => .error e
    | .ok result =>
      if result.success then
        match sessionBatch handlerExec handlerPress refs rest with
        | .error e => .error e
        | .ok rs => .ok (result :: rs)
      else .ok [result]

/-! # Theorems -/

/-! ## Supporting lemmas about list plumbing and pruning -/

theorem toList_append : (a b : NodeList) →
    (NodeList.append a b).toList = a.toList ++ b.toList
  | .nil, _ => rfl
  | .cons x xs, b => by
    simp [NodeList.append, NodeList.toList, toList_append xs b]

theorem clip_test_none (c : Node) : clip_test none c = false := by
  unfold clip_test
  cases c.bounds <;> rfl

theorem any_clipped_none : (cs : NodeList) → any_clipped none cs = false
  | .nil => rfl
  | .cons c rest => by
    simp [any_clipped, clip_test_none, any_clipped_none rest]

/-- With no active viewport, the keep-branch loop over already self-stable
children is the identity. -/
theorem prune_list_kept_id : (cs : NodeList) → ∀ (pn : Node) (sib : Nat),
    (∀ m ∈ cs.toList, self_stable m) → prune_list_kept cs pn sib none = cs
  | .nil, _, _, _ => rfl
  | .cons c rest, pn, sib, h => by
    have hc : self_stable c := h c (by simp [NodeList.toList])
    have hr := prune_list_kept_id rest pn sib
      (fun m hm => h m (by simp [NodeList.toList, hm]))
    simp [prune_list_kept, clip_test_none, hc (some pn) sib, hr, NodeList.append]

theorem child_viewport_id (n : Node) (vp : Option Rect)
    (h : (is_scrollable n && n.bounds.isSome) = false) :
    child_viewport n vp = vp := by
  unfold child_viewport
  split
  · rename_i hs hb
    rw [hs, hb] at h
    simp at h
  · rfl

theorem clip_record_none (n : Node) : clip_record n none = n.clipped := by
  simp [clip_record, any_clipped_none]

mutual
/-- Core of the idempotence argument: under `tame`, every node that one
compact pruning pass emits is mapped to itself by a second pass. -/
theorem stable_prune_node : (n : Node) → ∀ parent sib,
    tame_node n = true →
    ∀ m ∈ (prune_node n parent sib none).toList, self_stable m
  | .mk i r nm d vl st ac bd a0 cl cs => by
    intro parent sib htame m hm
    simp only [tame_node, Bool.and_eq_true] at htame
    obtain ⟨⟨htext, hscroll⟩, htcs⟩ := htame
    rw [Bool.not_eq_true'] at hscroll
    have hsb : (is_scrollable (Node.mk i r nm d vl st ac bd a0 cl cs)
        && (Node.mk i r nm d vl st ac bd a0 cl cs).bounds.isSome) = false := hscroll
    simp only [prune_node] at hm
    split at hm
    · exact stable_prune_hoist cs parent (NodeList.length cs) htcs m hm
    · split at hm
      · simp [NodeList.toList] at hm
      · rename_i hho hsk
        rw [child_viewport_id _ _ hsb] at hm
        split at hm
        · exact stable_prune_kept cs _ (NodeList.length cs) htcs m hm
        · rename_i hcol
          rw [clip_record_none] at hm
          simp only [Node.clipped, NodeList.toList, List.mem_singleton,
            List.not_mem_nil, or_false] at hm
          subst hm
          intro p2 s2
          set kids := prune_list_kept cs (Node.mk i r nm d vl st ac bd a0 cl cs)
            (NodeList.length cs) none with hkdef
          have hkids : ∀ x ∈ kids.toList, self_stable x :=
            fun x hx => stable_prune_kept cs _ (NodeList.length cs) htcs x hx
          rw [Bool.not_eq_true] at hho
          rw [Bool.not_eq_true] at hsk
          simp only [should_skip, Node.role, Node.name, Node.bounds, Node.states,
            Node.actions] at hsk
          rw [Bool.or_eq_false_iff, Bool.or_eq_false_iff, Bool.or_eq_false_iff,
            Bool.or_eq_false_iff, Bool.or_eq_false_iff] at hsk
          obtain ⟨⟨⟨⟨⟨hk1, hk2⟩, hk3⟩, hk4⟩, _⟩, _⟩ := hsk
          have hrt : (r == "text") = false := by
            cases h : (r == "text")
            · rfl
            · have h2 : (!(r == "text")) = true := htext
              rw [h] at h2
              simp at h2
          have hho2 : should_hoist (Node.mk i r nm d vl st ac bd a0 cl kids) = false := hho
          have hsk2 : should_skip (Node.mk i r nm d vl st ac bd a0 cl kids) p2 s2 = false := by
            simp only [should_skip, Node.role, Node.name, Node.bounds, Node.states,
              Node.actions]
            rw [Bool.or_eq_false_iff, Bool.or_eq_false_iff, Bool.or_eq_false_iff,
              Bool.or_eq_false_iff, Bool.or_eq_false_iff]
            exact ⟨⟨⟨⟨⟨hk1, hk2⟩, hk3⟩, hk4⟩, by simp [hrt]⟩, by simp [hrt]⟩
          have hsb2 : (is_scrollable (Node.mk i r nm d vl st ac bd a0 cl kids)
              && (Node.mk i r nm d vl st ac bd a0 cl kids).bounds.isSome) = false := hscroll
          have hcol2 : collapse_cond (Node.mk i r nm d vl st ac bd a0 cl kids) kids = false := by
            rw [Bool.not_eq_true] at hcol
            exact hcol
          simp only [prune_node]
          rw [if_neg (fun hc => Bool.false_ne_true (hho2 ▸ hc))]
          rw [if_neg (fun hc => Bool.false_ne_true (hsk2 ▸ hc))]
          rw [child_viewport_id _ _ hsb2]
          rw [prune_list_kept_id _ _ _ hkids]
          rw [if_neg (fun hc => Bool.false_ne_true (hcol2 ▸ hc))]
          rw [clip_record_none]
          rfl

theorem stable_prune_hoist : (cs : NodeList) → ∀ parent sib,
    tame_list cs = true →
    ∀ m ∈ (prune_list_hoist cs parent sib none).toList, self_stable m
  | .nil => by
    intro parent sib _ m hm
    simp [prune_list_hoist, NodeList.toList] at hm
  | .cons c rest => by
    intro parent sib h m hm
    simp only [tame_list, Bool.and_eq_true] at h
    simp only [prune_list_hoist, toList_append, List.mem_append] at hm
    rcases hm with hm | hm
    · exact stable_prune_node c parent sib h.1 m hm
    · exact stable_prune_hoist rest parent sib h.2 m hm

theorem stable_prune_kept : (cs : NodeList) → ∀ (pn : Node) sib,
    tame_list cs = true →
    ∀ m ∈ (prune_list_kept cs pn sib none).toList, self_stable m
  | .nil => by
    intro pn sib _ m hm
    simp [prune_list_kept, NodeList.toList] at hm
  | .cons c rest => by
    intro pn sib h m hm
    simp only [tame_list, Bool.and_eq_true] at h
    simp [prune_list_kept, clip_test_none, toList_append] at hm
    rcases hm with hm | hm
    · exact stable_prune_node c (some pn) sib h.1 m hm
    · exact stable_prune_kept rest pn sib h.2 m hm
end

theorem stable_prune_roots : (L : NodeList) → ∀ len,
    tame_list L = true → ∀ m ∈ (prune_roots L len none).toList, self_stable m
  | .nil => by
    intro len _ m hm
    simp [prune_roots, NodeList.toList] at hm
  | .cons c rest => by
    intro len h m hm
    simp only [tame_list, Bool.and_eq_true] at h
    simp only [prune_roots, toList_append, List.mem_append] at hm
    rcases hm with hm | hm
    · exact stable_prune_node c none len h.1 m hm
    · exact stable_prune_roots rest len h.2 m hm

theorem prune_roots_id : (L : NodeList) → ∀ len,
    (∀ m ∈ L.toList, self_stable m) → prune_roots L len none = L
  | .nil, _, _ => rfl
  | .cons c rest, len, h => by
    have hc : self_stable c := h c (by simp [NodeList.toList])
    have hr := prune_roots_id rest len (fun m hm => h m (by simp [NodeList.toList, hm]))
    simp [prune_roots, hc none len, hr, NodeList.append]

/-! ## Claim C2 — idempotence of compact pruning -/

/-- C2 counterexample: at the default (compact) detail, pruning is not
idempotent.  On `c2_tree`, the first pass drops the unnamed image, leaving
the named text node as the sole child of a named parent; the second pass
then drops the text node as a redundant label, so the two outputs differ. -/
theorem claim_C2_counterexample :
    prune_tree (prune_tree c2_tree "compact" none) "compact" none
      ≠ prune_tree c2_tree "compact" none := by
  decide

/-- C2 (amended): compact pruning is idempotent on trees that contain no
node of role "text" (the sole-child-of-named-parent drop rule is the only
rule that depends on sibling counts a first pass may change) and no
scrollable node with bounds (children hoisted from an unnamed wrapper into
a scrollable container bypass the first pass's viewport clip test and are
clipped only by a second pass). -/
theorem claim_C2 (t : NodeList) (h : tame_list t = true) :
    prune_tree (prune_tree t "compact" none) "compact" none
      = prune_tree t "compact" none := by
  unfold prune_tree
  rw [if_neg (by decide), if_neg (by decide)]
  exact prune_roots_id _ _ (stable_prune_roots t (NodeList.length t) h)

theorem claim_C2_witness :
    tame_list c2_tame_tree = true ∧
      prune_tree (prune_tree c2_tame_tree "compact" none) "compact" none
        = prune_tree c2_tame_tree "compact" none :=
  ⟨by decide, claim_C2 c2_tame_tree (by decide)⟩

/-! ## Claim C3 — geometry lemmas -/

theorem rect_nonempty_inter (b v : Rect) (hb : 0 < b.w ∧ 0 < b.h)
    (hv : rect_nonempty v = true) (hout : is_outside_viewport b v = false) :
    rect_nonempty (inter_rect b v) = true := by
  simp only [rect_nonempty, inter_rect, intersect_viewports, is_outside_viewport,
    Bool.and_eq_true, decide_eq_true_eq, Bool.or_eq_false_iff,
    decide_eq_false_iff_not, not_le] at *
  obtain ⟨hv1, hv2⟩ := hv
  obtain ⟨⟨⟨h1, h2⟩, h3⟩, h4⟩ := hout
  constructor <;> omega

theorem rect_nonempty_mono (b v0 v : Rect) (hsub : rect_sub v0 v)
    (h : rect_nonempty (inter_rect b v0) = true) :
    rect_nonempty (inter_rect b v) = true := by
  simp only [rect_nonempty, inter_rect, intersect_viewports, Bool.and_eq_true,
    decide_eq_true_eq] at *
  obtain ⟨hs1, hs2, hs3, hs4⟩ := hsub
  obtain ⟨h1, h2⟩ := h
  constructor <;> omega

theorem rect_sub_inter (b v0 : Rect) (h : rect_nonempty (inter_rect b v0) = true) :
    rect_sub (inter_rect b v0) v0 := by
  simp only [rect_nonempty, inter_rect, intersect_viewports, Bool.and_eq_true,
    decide_eq_true_eq] at h
  obtain ⟨h1, h2⟩ := h
  refine ⟨?_, ?_, ?_, ?_⟩ <;>
    simp only [inter_rect, intersect_viewports] <;> omega

theorem rect_sub_refl (r : Rect) : rect_sub r r :=
  ⟨le_refl _, le_refl _, le_refl _, le_refl _⟩

theorem rect_sub_trans {a b c : Rect} (h1 : rect_sub a b) (h2 : rect_sub b c) :
    rect_sub a c := by
  obtain ⟨x1, y1, z1, w1⟩ := h1
  obtain ⟨x2, y2, z2, w2⟩ := h2
  exact ⟨le_trans x2 x1, le_trans y2 y1, le_trans z1 z2, le_trans w1 w2⟩

/-! ## Claim C3 — plumbing lemmas -/

theorem viewport_inv_list_append (anc : List Rect) (vp : Option Rect) :
    (a b : NodeList) →
    viewport_inv_list anc vp (NodeList.append a b)
      = (viewport_inv_list anc vp a && viewport_inv_list anc vp b)
  | .nil, b => by simp [NodeList.append, viewport_inv_list]
  | .cons x xs, b => by
    simp [NodeList.append, viewport_inv_list,
      viewport_inv_list_append anc vp xs b, Bool.and_assoc]

theorem clip_test_false_outside (vp : Option Rect) (c : Node)
    (h : clip_test vp c = false) : caller_ok c vp := by
  intro b v0 hb hv
  subst hv
  unfold clip_test at h
  rw [hb] at h
  exact h

theorem scrollable_meaningful (n : Node) (h : is_scrollable n = true) :
    has_meaningful_actions n = true := by
  unfold is_scrollable at h
  unfold has_meaningful_actions
  rw [List.any_eq_true]
  refine ⟨"scroll", ?_, by decide⟩
  simpa using h

theorem child_viewport_scroll (n : Node) (vp : Option Rect) (b : Rect)
    (hs : is_scrollable n = true) (hb : n.bounds = some b) :
    child_viewport n vp = some (intersect_viewports b vp) := by
  unfold child_viewport
  rw [hs, hb]

theorem anc_all_nonempty (anc : List Rect) (vp : Option Rect) (b : Rect)
    (hinv : vp_inv anc vp) (hb : 0 < b.w ∧ 0 < b.h)
    (hout : ∀ v0, vp = some v0 → is_outside_viewport b v0 = false) :
    anc.all (fun v => rect_nonempty (inter_rect b v)) = true := by
  rw [List.all_eq_true]
  intro v hv
  rcases hvp : vp with _ | v0
  · rw [hvp] at hinv
    rw [hinv.1 rfl] at hv
    simp at hv
  · rw [hvp] at hinv hout
    exact rect_nonempty_mono b v0 v (hinv.2.1 v hv v0 rfl)
      (rect_nonempty_inter b v0 hb (hinv.2.2 v0 rfl) (hout v0 rfl))

theorem vp_inv_push (anc : List Rect) (vp : Option Rect) (b : Rect)
    (hinv : vp_inv anc vp) (hb : 0 < b.w ∧ 0 < b.h)
    (hout : ∀ v0, vp = some v0 → is_outside_viewport b v0 = false) :
    vp_inv (anc ++ [intersect_viewports b vp]) (some (intersect_viewports b vp)) := by
  have hne : rect_nonempty (intersect_viewports b vp) = true := by
    rcases vp with _ | v0
    · simp [intersect_viewports, rect_nonempty, hb.1, hb.2]
    · exact rect_nonempty_inter b v0 hb (hinv.2.2 v0 rfl) (hout v0 rfl)
  refine ⟨fun h => by simp at h, ?_, ?_⟩
  · intro v hv v0' hv0'
    injection hv0' with he
    subst he
    rcases List.mem_append.mp hv with hv | hv
    · rcases hvp : vp with _ | v0
      · rw [hvp] at hinv
        rw [hinv.1 rfl] at hv
        simp at hv
      · rw [hvp] at hinv hne
        exact rect_sub_trans (rect_sub_inter b v0 hne) (hinv.2.1 v hv v0 rfl)
    · simp at hv
      subst hv
      exact rect_sub_refl _
  · intro v0' hv0'
    injection hv0' with he
    subst he
    exact hne

mutual
/-- Core of the amended viewport invariant: pruning a hoist-free,
well-bounded node under a viewport stack satisfying `vp_inv`, with the
caller guarantee of `caller_ok`, yields nodes satisfying the invariant. -/
theorem c3_prune_node : (n : Node) → ∀ parent sib anc vp,
    no_hoist_node n = true → wf_bounds_node n = true →
    vp_inv anc vp → caller_ok n vp →
    viewport_inv_list anc vp (prune_node n parent sib vp) = true
  | .mk i r nm d vl st ac bd a0 cl cs => by
    intro parent sib anc vp hnh hwf hinv hcok
    simp only [no_hoist_node, Bool.and_eq_true] at hnh
    obtain ⟨hnhs, hnhcs⟩ := hnh
    rw [Bool.not_eq_true'] at hnhs
    simp only [wf_bounds_node, Bool.and_eq_true] at hwf
    obtain ⟨hwfb, hwfcs⟩ := hwf
    simp only [prune_node]
    rw [if_neg (fun hc => Bool.false_ne_true (hnhs ▸ hc))]
    by_cases hsk : should_skip (Node.mk i r nm d vl st ac bd a0 cl cs) parent sib = true
    · rw [if_pos hsk]
      rfl
    rw [if_neg hsk]
    rw [Bool.not_eq_true] at hsk
    simp only [should_skip, Node.role, Node.name, Node.bounds, Node.states,
      Node.actions] at hsk
    rw [Bool.or_eq_false_iff, Bool.or_eq_false_iff, Bool.or_eq_false_iff,
      Bool.or_eq_false_iff, Bool.or_eq_false_iff] at hsk
    have hpos : ∀ b, bd = some b → 0 < b.w ∧ 0 < b.h := by
      intro b hb
      have hz := hsk.1.1.1.1.2
      rw [hb] at hz
      have hwfb2 := hwfb
      rw [hb] at hwfb2
      rw [Bool.or_eq_false_iff] at hz
      simp only [Bool.and_eq_true, decide_eq_true_eq] at hwfb2
      have hz1 : b.w ≠ 0 := by
        intro hq
        rw [hq] at hz
        simp at hz
      have hz2 : b.h ≠ 0 := by
        intro hq
        rw [hq] at hz
        simp at hz
      omega
    cases hscr : ac.contains "scroll" with
    | false =>
      rw [child_viewport_id _ _ (by
        simp only [is_scrollable, Node.actions, hscr, Bool.false_and])]
      by_cases hcol : collapse_cond (Node.mk i r nm d vl st ac bd a0 cl cs)
          (prune_list_kept cs (Node.mk i r nm d vl st ac bd a0 cl cs)
            (NodeList.length cs) vp) = true
      · rw [if_pos hcol]
        exact c3_prune_kept cs _ (NodeList.length cs) anc vp hnhcs hwfcs hinv
      · rw [if_neg hcol]
        simp only [viewport_inv_list, Bool.and_true]
        simp only [viewport_inv_node, is_scrollable, Node.actions, hscr,
          Bool.and_eq_true]
        constructor
        · rcases hbd : bd with _ | b
          · rfl
          · exact anc_all_nonempty anc vp b hinv (hpos b hbd)
              (fun v0 hv0 => hcok b v0 (by simp [Node.bounds, hbd]) hv0)
        · exact c3_prune_kept cs _ (NodeList.length cs) anc vp hnhcs hwfcs hinv
    | true =>
      rcases hbd : bd with _ | b
      · rw [child_viewport_id _ _ (by simp [Node.bounds])]
        by_cases hcol : collapse_cond (Node.mk i r nm d vl st ac none a0 cl cs)
            (prune_list_kept cs (Node.mk i r nm d vl st ac none a0 cl cs)
              (NodeList.length cs) vp) = true
        · rw [if_pos hcol]
          exact c3_prune_kept cs _ (NodeList.length cs) anc vp hnhcs hwfcs hinv
        · rw [if_neg hcol]
          simp only [viewport_inv_list, Bool.and_true]
          simp only [viewport_inv_node, is_scrollable, Node.actions, hscr,
            Node.bounds, Bool.and_eq_true]
          exact ⟨trivial, c3_prune_kept cs _ (NodeList.length cs) anc vp hnhcs hwfcs hinv⟩
      · have hs2 : is_scrollable (Node.mk i r nm d vl st ac (some b) a0 cl cs) = true := by
          simp only [is_scrollable, Node.actions]
          exact hscr
        rw [child_viewport_scroll _ vp b hs2 (by simp [Node.bounds])]
        have hinv2 := vp_inv_push anc vp b hinv (hpos b hbd)
          (fun v0 hv0 => hcok b v0 (by simp [Node.bounds, hbd]) hv0)
        have hcolf : collapse_cond (Node.mk i r nm d vl st ac (some b) a0 cl cs)
            (prune_list_kept cs (Node.mk i r nm d vl st ac (some b) a0 cl cs)
              (NodeList.length cs) (some (intersect_viewports b vp))) = false := by
          have hma := scrollable_meaningful _ hs2
          simp [collapse_cond, hma]
        rw [if_neg (fun hc => Bool.false_ne_true (hcolf ▸ hc))]
        simp only [viewport_inv_list, Bool.and_true]
        simp only [viewport_inv_node, is_scrollable, Node.actions, hscr,
          Node.bounds, Bool.and_eq_true]
        constructor
        · exact anc_all_nonempty anc vp b hinv (hpos b hbd)
            (fun v0 hv0 => hcok b v0 (by simp [Node.bounds, hbd]) hv0)
        · exact c3_prune_kept cs _ (NodeList.length cs)
            (anc ++ [intersect_viewports b vp]) (some (intersect_viewports b vp))
            hnhcs hwfcs hinv2

theorem c3_prune_kept : (cs : NodeList) → ∀ (pn : Node) sib anc vp,
    no_hoist_list cs = true → wf_bounds_list cs = true → vp_inv anc vp →
    viewport_inv_list anc vp (prune_list_kept cs pn sib vp) = true
  | .nil => by
    intro pn sib anc vp _ _ _
    rfl
  | .cons c rest => by
    intro pn sib anc vp hnh hwf hinv
    simp only [no_hoist_list, Bool.and_eq_true] at hnh
    simp only [wf_bounds_list, Bool.and_eq_true] at hwf
    simp only [prune_list_kept]
    by_cases hct : clip_test vp c = true
    · rw [if_pos hct]
      exact c3_prune_kept rest pn sib anc vp hnh.2 hwf.2 hinv
    · rw [if_neg hct]
      rw [Bool.not_eq_true] at hct
      rw [viewport_inv_list_append]
      rw [c3_prune_node c (some pn) sib anc vp hnh.1 hwf.1 hinv
        (clip_test_false_outside vp c hct)]
      rw [c3_prune_kept rest pn sib anc vp hnh.2 hwf.2 hinv]
      rfl
end

theorem vp_inv_trivial : vp_inv [] none :=
  ⟨fun _ => rfl, fun v hv => absurd hv (List.not_mem_nil v),
    fun v0 h => Option.noConfusion h⟩

theorem caller_ok_none (n : Node) : caller_ok n none :=
  fun _ v0 _ h => Option.noConfusion h

theorem c3_prune_roots : (L : NodeList) → ∀ len,
    no_hoist_list L = true → wf_bounds_list L = true →
    viewport_inv_list [] none (prune_roots L len none) = true
  | .nil => by
    intro len _ _
    rfl
  | .cons c rest => by
    intro len hnh hwf
    simp only [no_hoist_list, Bool.and_eq_true] at hnh
    simp only [wf_bounds_list, Bool.and_eq_true] at hwf
    simp only [prune_roots]
    rw [viewport_inv_list_append]
    rw [c3_prune_node c none len [] none hnh.1 hwf.1 vp_inv_trivial (caller_ok_none c)]
    rw [c3_prune_roots rest len hnh.2 hwf.2]
    rfl

/-! ## Claim C3 — the viewport invariant -/

/-- C3 counterexample: the viewport invariant fails for nodes that became
children of a scrollable ancestor through hoisting of an unnamed wrapper.
In `c3_tree` the button at 100,100 5x5 lies entirely outside the viewport
of the scrollable list 0,0 10x10; hoisting the generic wrapper makes it a
kept direct child of the list without a clip test, and its intersection
with the ancestor viewport is empty. -/
theorem claim_C3_counterexample :
    prune_tree c3_tree "compact" none
        = NodeList.ofList [mkNodeF "e0" "list" "Items" ["scroll"]
            (some ⟨0, 0, 10, 10⟩)
            [mkNodeF "e2" "button" "X" ["click"] (some ⟨100, 100, 5, 5⟩) []]]
      ∧ viewport_inv_list [] none (prune_tree c3_tree "compact" none) = false := by
  decide

/-- C3 (amended): in the output of compact pruning, for every kept node
with bounds and every scroll-ancestor with bounds, the intersection of the
node's bounds with the ancestor's effective viewport (its bounds
successively intersected with ancestral viewports) is non-empty — provided
the tree contains no hoistable wrapper (unnamed generic, unnamed region,
or unnamed actionless group), whose children would bypass the clip test,
and every bounds rect has non-negative extent as the data model requires. -/
theorem claim_C3 (t : NodeList) (h1 : no_hoist_list t = true)
    (h2 : wf_bounds_list t = true) :
    viewport_inv_list [] none (prune_tree t "compact" none) = true := by
  unfold prune_tree
  rw [if_neg (by decide)]
  exact c3_prune_roots t (NodeList.length t) h1 h2

theorem claim_C3_witness :
    no_hoist_list c3_good_tree = true ∧ wf_bounds_list c3_good_tree = true ∧
      viewport_inv_list [] none (prune_tree c3_good_tree "compact" none) = true :=
  ⟨by decide, by decide, claim_C3 c3_good_tree (by decide) (by decide)⟩

/-! ## Claim C9 — the compact serialiser never emits the focus action -/

/-- C9: `_format_line` filters "focus" out of the action list, so the
emitted `[actions]` field contains only non-focus action codes; the field
is omitted exactly when no non-focus action remains (in particular when
focus is the sole action); and the bounds field is omitted exactly when
the node has no bounds or no non-focus action. -/
theorem claim_C9 (n : Node) :
    ("focus" ∉ meaningfulActions n)
    ∧ (fl_actions_parts n
        = if meaningfulActions n = [] then []
          else ["[" ++ pyJoin "," ((n.actions.filter (fun a => a != "focus")).map
            (codeOf ACTION_CODES)) ++ "]"])
    ∧ (fl_actions_parts n = [] ↔ meaningfulActions n = [])
    ∧ (fl_bounds_parts n = [] ↔ (n.bounds = none ∨ meaningfulActions n = [])) := by
  refine ⟨?_, ?_, ?_, ?_⟩
  · intro hmem
    have := List.of_mem_filter hmem
    simp at this
  · by_cases h : meaningfulActions n = []
    · unfold fl_actions_parts
      rw [if_pos h, h]
      simp
    · have hne : (meaningfulActions n != []) = true := by rwa [bne_iff_ne]
      unfold fl_actions_parts
      rw [if_pos hne, if_neg h]
      rfl
  · constructor
    · intro he
      by_contra h
      have hne : (meaningfulActions n != []) = true := by rwa [bne_iff_ne]
      unfold fl_actions_parts at he
      rw [if_pos hne] at he
      exact absurd he (by simp)
    · intro h
      unfold fl_actions_parts
      rw [h]
      simp
  · rcases hb : n.bounds with _ | b
    · unfold fl_bounds_parts
      rw [hb]
      simp [hb]
    · unfold fl_bounds_parts
      rw [hb]
      dsimp only
      by_cases h : meaningfulActions n = []
      · rw [h]
        simp [hb, h]
      · have hne : (meaningfulActions n != []) = true := by rwa [bne_iff_ne]
        rw [if_pos hne]
        simp [hb, h]

/-! ## Claim C6 — output truncation -/

theorem pyRFindNl_spec : (l : List Char) →
    (pyRFindNl l = -1 ∧ '\n' ∉ l)
    ∨ (∃ k : Nat, pyRFindNl l = (k : Int) ∧ l.get? k = some '\n'
        ∧ ∀ j, k < j → l.get? j ≠ some '\n')
  | [] => Or.inl ⟨rfl, by simp⟩
  | c :: cs => by
    rcases pyRFindNl_spec cs with ⟨h1, h2⟩ | ⟨k, h1, h2, h3⟩
    · by_cases hc : c = '\n'
      · right
        refine ⟨0, ?_, ?_, ?_⟩
        · simp [pyRFindNl, h1, hc]
        · simp [hc]
        · intro j hj
          rcases j with _ | j
          · omega
          · intro hq
            simp only [List.get?_cons_succ] at hq
            exact h2 (List.get?_mem hq)
      · left
        refine ⟨?_, ?_⟩
        · simp [pyRFindNl, h1, hc]
        · simp only [List.mem_cons, not_or]
          exact ⟨fun h => hc h.symm, h2⟩
    · right
      refine ⟨k + 1, ?_, ?_, ?_⟩
      · simp only [pyRFindNl, h1]
        rw [if_pos (by omega)]
        omega
      · simpa using h2
      · intro j hj
        rcases j with _ | j
        · omega
        · intro hq
          simp only [List.get?_cons_succ] at hq
          exact h3 j (by omega) hq

set_option maxRecDepth 8000 in
/-- C6 counterexample: with a 10-character limit, the serialized envelope
`c6_env` exceeds the limit but has no newline among its first 10
characters (the header line alone is longer), so the output is not cut at
any newline: the footer is appended to the raw 10-character prefix. -/
theorem claim_C6_counterexample :
    (10 : Int) < (pyLen (serialize_untruncated c6_env none "compact") : Int)
    ∧ last_nl_cut (serialize_untruncated c6_env none "compact") 10 = none
    ∧ pyTake (serialize_untruncated c6_env none "compact") 10 = "# CUP 0.1."
    ∧ serialize_compact c6_env none "compact" 10
        = pyTake (serialize_untruncated c6_env none "compact") 10 ++ TRUNC_FOOTER := by
  decide

/-- C6 (amended): `serialize_compact` returns its output unmodified when
the output length is at most `max_chars` (in particular at exactly
`max_chars`) or when `max_chars` is not positive; when the length exceeds
`max_chars`, the output is cut at the last newline among the first
`max_chars` characters provided that newline sits at a positive index
(the cut index carries a newline and no later position below `max_chars`
does), and the diagnostic truncation footer is appended; when no such
newline exists the footer is appended to the uncut `max_chars`-character
prefix. -/
theorem claim_C6 (env : Envelope) (wl : Option (List WinInfo)) (detail : String) (mc : Int) :
    (((pyLen (serialize_untruncated env wl detail) : Int) ≤ mc ∨ mc ≤ 0) →
      serialize_compact env wl detail mc = serialize_untruncated env wl detail)
    ∧ (0 < mc → mc < (pyLen (serialize_untruncated env wl detail) : Int) →
        ((0 < pyRFindNl ((serialize_untruncated env wl detail).toList.take mc.toNat) →
          serialize_compact env wl detail mc
            = pyTake (serialize_untruncated env wl detail)
                (pyRFindNl ((serialize_untruncated env wl detail).toList.take mc.toNat)).toNat
              ++ TRUNC_FOOTER
          ∧ (serialize_untruncated env wl detail).toList.get?
              (pyRFindNl ((serialize_untruncated env wl detail).toList.take mc.toNat)).toNat
              = some '\n'
          ∧ ∀ j : Nat,
              (pyRFindNl ((serialize_untruncated env wl detail).toList.take mc.toNat)).toNat
                < j →
              (j : Int) < mc →
              (serialize_untruncated env wl detail).toList.get? j ≠ some '\n')
        ∧ (pyRFindNl ((serialize_untruncated env wl detail).toList.take mc.toNat) ≤ 0 →
            serialize_compact env wl detail mc
              = pyTake (serialize_untruncated env wl detail) mc.toNat ++ TRUNC_FOOTER))) := by
  refine ⟨?_, ?_⟩
  · intro h
    simp only [serialize_compact]
    rw [if_neg ?_]
    intro hc
    rcases h with h | h
    · omega
    · omega
  · intro h0 hlen
    have hcond : mc > 0 ∧ (pyLen (serialize_untruncated env wl detail) : Int) > mc :=
      ⟨h0, hlen⟩
    have htl : (pyTake (serialize_untruncated env wl detail) mc.toNat).toList
        = (serialize_untruncated env wl detail).toList.take mc.toNat := rfl
    constructor
    · intro hpos
      rcases pyRFindNl_spec ((serialize_untruncated env wl detail).toList.take mc.toNat)
        with ⟨h1, _⟩ | ⟨k, h1, h2, h3⟩
      · rw [h1] at hpos
        exact absurd hpos (by norm_num)
      · have hkm : k < mc.toNat := by
          have hlt : k < ((serialize_untruncated env wl detail).toList.take mc.toNat).length := by
            by_contra hge
            rw [List.get?_eq_none.mpr (by omega)] at h2
            exact Option.noConfusion h2
          rw [List.length_take] at hlt
          omega
        refine ⟨?_, ?_, ?_⟩
        · simp only [serialize_compact]
          rw [if_pos hcond, htl, h1]
          rw [if_pos (by rwa [h1] at hpos)]
          have hppk : pyTake (pyTake (serialize_untruncated env wl detail) mc.toNat)
              ((k : Int)).toNat
              = pyTake (serialize_untruncated env wl detail) ((k : Int)).toNat := by
            show String.mk (((serialize_untruncated env wl detail).toList.take
                mc.toNat).take ((k : Int)).toNat)
              = String.mk ((serialize_untruncated env wl detail).toList.take ((k : Int)).toNat)
            rw [List.take_take, min_eq_left (by omega)]
          rw [hppk]
        · rw [h1]
          have := h2
          rw [List.get?_take hkm] at this
          simpa using this
        · intro j hj1 hj2
          rw [h1] at hj1
          have hj1n : k < j := by
            simpa using hj1
          have := h3 j hj1n
          rw [List.get?_take (by omega)] at this
          exact this
    · intro hle
      simp only [serialize_compact]
      rw [if_pos hcond, htl]
      rw [if_neg (by omega)]

set_option maxRecDepth 8000 in
theorem claim_C6_witness :
    serialize_compact c6_env2 none "compact" 40
      = pyTake (serialize_untruncated c6_env2 none "compact")
          (pyRFindNl ((serialize_untruncated c6_env2 none "compact").toList.take
            (40 : Int).toNat)).toNat
        ++ TRUNC_FOOTER :=
  (((claim_C6 c6_env2 none "compact" 40).2 (by decide) (by decide)).1 (by decide)).1

/-! ## Claim C8 — envelope version, scale omission, header line -/

theorem pyJoin_foldl_append (sep a b : String) : (l : List String) →
    List.foldl (fun acc y => acc ++ sep ++ y) (a ++ b) l
      = a ++ List.foldl (fun acc y => acc ++ sep ++ y) b l
  | [] => rfl
  | y :: ys => by
    simp only [List.foldl_cons]
    rw [String.append_assoc a b sep, String.append_assoc a (b ++ sep) y]
    exact pyJoin_foldl_append sep a ((b ++ sep) ++ y) ys

theorem pyJoin_cons_ne (sep x : String) (xs : List String) (h : xs ≠ []) :
    pyJoin sep (x :: xs) = x ++ sep ++ pyJoin sep xs := by
  rcases xs with _ | ⟨y, ys⟩
  · exact absurd rfl h
  · simp only [pyJoin, List.foldl_cons]
    rw [show x ++ sep ++ y = (x ++ sep) ++ y from rfl]
    exact pyJoin_foldl_append sep (x ++ sep) y ys

/-- The untruncated compact text always starts with the header line built
from version, platform and screen dimensions, followed by a newline. -/
theorem serialize_untruncated_header (env : Envelope)
    (wl : Option (List WinInfo)) (detail : String) :
    ∃ rest, serialize_untruncated env wl detail
      = "# CUP " ++ env.version ++ " | " ++ env.platform ++ " | "
        ++ intStr env.screen.w ++ "x" ++ intStr env.screen.h ++ "\n" ++ rest := by
  simp only [serialize_untruncated]
  simp only [List.append_assoc, List.cons_append, List.singleton_append, List.nil_append]
  rw [pyJoin_cons_ne _ _ _ (by simp)]
  rw [String.append_assoc]
  exact ⟨_, rfl⟩

/-- C8: `build_envelope` stamps version "0.1.0"; the screen dict omits
`scale` exactly when the scale is absent or equals 1.0; and (while the
output is within the character limit) the compact text of such an
envelope starts with the header line
`# CUP 0.1.0 | <platform> | <w>x<h>`. -/
theorem claim_C8 (tree : NodeList) (platform : String) (scope : Option String)
    (w h : Int) (scale : Option Rat) (app_name : Option String) (app_pid : Option Int)
    (app_bundle : Option String) (tools : Option (List String)) (ts : Int)
    (wl : Option (List WinInfo)) (detail : String) (mc : Int) :
    (build_envelope tree platform scope w h scale app_name app_pid app_bundle
        tools ts).version = "0.1.0"
    ∧ ((build_envelope tree platform scope w h scale app_name app_pid app_bundle
        tools ts).screen.scale = none ↔ (scale = none ∨ scale = some 1))
    ∧ (((pyLen (serialize_untruncated (build_envelope tree platform scope w h scale
          app_name app_pid app_bundle tools ts) wl detail) : Int) ≤ mc ∨ mc ≤ 0) →
        ∃ rest, serialize_compact (build_envelope tree platform scope w h scale
            app_name app_pid app_bundle tools ts) wl detail mc
          = "# CUP 0.1.0 | " ++ platform ++ " | " ++ intStr w ++ "x" ++ intStr h
            ++ "\n" ++ rest) := by
  refine ⟨rfl, ?_, ?_⟩
  · rcases scale with _ | sc
    · simp [build_envelope]
    · by_cases hsc : sc = (1 : Rat)
      · simp [build_envelope, hsc]
      · simp [build_envelope, hsc]
  · intro hshort
    have hnotr : serialize_compact (build_envelope tree platform scope w h scale
        app_name app_pid app_bundle tools ts) wl detail mc
        = serialize_untruncated (build_envelope tree platform scope w h scale
            app_name app_pid app_bundle tools ts) wl detail := by
      simp only [serialize_compact]
      rw [if_neg ?_]
      intro hc
      rcases hshort with hs | hs
      · omega
      · omega
    obtain ⟨rest, hrest⟩ := serialize_untruncated_header (build_envelope tree platform
      scope w h scale app_name app_pid app_bundle tools ts) wl detail
    refine ⟨rest, ?_⟩
    rw [hnotr, hrest]
    rw [show (build_envelope tree platform scope w h scale app_name
      app_pid app_bundle tools ts).version = "0.1.0" from rfl]
    rw [show ("# CUP " ++ "0.1.0" ++ " | " : String) = "# CUP 0.1.0 | " from by decide]
    rfl

set_option maxRecDepth 8000 in
/-- Witness for C8: a concrete empty-tree envelope on a 8x6 screen is
within the 40000-character limit and its compact text starts with the
expected header line. -/
theorem claim_C8_witness :
    ((pyLen (serialize_untruncated (build_envelope NodeList.nil "windows" none 8 6
        none none none none none 0) none "compact") : Int) ≤ 40000 ∨ (40000 : Int) ≤ 0)
    ∧ ∃ rest, serialize_compact (build_envelope NodeList.nil "windows" none 8 6 none
          none none none none 0) none "compact" 40000
        = "# CUP 0.1.0 | " ++ "windows" ++ " | " ++ intStr 8 ++ "x" ++ intStr 6
          ++ "\n" ++ rest :=
  ⟨Or.inl (by decide),
   (claim_C8 NodeList.nil "windows" none 8 6 none none none none none 0
      none "compact" 40000).2.2 (Or.inl (by decide))⟩

/-! ## Claim C4 — search result ranking -/

theorem scoreLe_trans (a b c : SearchResult) (h1 : scoreLe a b) (h2 : scoreLe b c) :
    scoreLe a c :=
  decide_eq_true (le_trans (of_decide_eq_true h2) (of_decide_eq_true h1))

theorem scoreLe_total (a b : SearchResult) : scoreLe a b || scoreLe b a := by
  rcases le_total a.score b.score with h | h
  · have hb : scoreLe b a = true := decide_eq_true h
    simp [hb]
  · have hb : scoreLe a b = true := decide_eq_true h
    simp [hb]

theorem strip_children_children (n : Node) :
    (strip_children n).children = NodeList.nil := by
  cases n; rfl

mutual
/-- Every result the walk emits from one node scores at least the
threshold and carries no children. -/
theorem walk_node_sound : (n : Node) → ∀ pc trs ntoks st th,
    ∀ r ∈ walk_node n pc trs ntoks st th,
      th ≤ r.score ∧ r.node.children = NodeList.nil
  | .mk i ro nm d v sts acts bd a cl cs, pc, trs, ntoks, st, th, r, hr => by
    rw [walk_node] at hr
    rcases List.mem_append.mp hr with hl | hrr
    · by_cases hth : th ≤ score_node (Node.mk i ro nm d v sts acts bd a cl cs) pc trs ntoks st
      · rw [if_pos hth] at hl
        rcases List.mem_singleton.mp hl with rfl
        exact ⟨hth, strip_children_children (Node.mk i ro nm d v sts acts bd a cl cs)⟩
      · rw [if_neg hth] at hl
        exact absurd hl (List.not_mem_nil r)
    · exact walk_list_sound cs _ trs ntoks st th r hrr

theorem walk_list_sound : (cs : NodeList) → ∀ pc trs ntoks st th,
    ∀ r ∈ walk_list cs pc trs ntoks st th,
      th ≤ r.score ∧ r.node.children = NodeList.nil
  | .cons n ns, pc, trs, ntoks, st, th, r, hr => by
    rw [walk_list] at hr
    rcases List.mem_append.mp hr with hl | hrr
    · exact walk_node_sound n pc trs ntoks st th r hl
    · exact walk_list_sound ns pc trs ntoks st th r hrr
end

theorem pairwise_of_mem_all {α : Type} {R : α → α → Prop} :
    ∀ {l : List α}, (∀ a ∈ l, ∀ b ∈ l, R a b) → l.Pairwise R
  | [], _ => .nil
  | a :: t, h =>
    .cons (fun b hb => h a (.head t) b (.tail a hb))
      (pairwise_of_mem_all (fun x hx y hy => h x (.tail a hx) y (.tail a hy)))

/-- Stability of the ranking sort: restricted to one score class, the
sorted list is exactly the walk order. -/
theorem filter_mergeSort_eq (L : List SearchResult) (s : Rat) :
    (L.mergeSort scoreLe).filter (fun r => decide (r.score = s))
      = L.filter (fun r => decide (r.score = s)) := by
  set p : SearchResult → Bool := fun r => decide (r.score = s) with hp
  have hmem : ∀ r ∈ L.filter p, r.score = s := by
    intro r hr
    have := List.of_mem_filter hr
    exact of_decide_eq_true this
  have hpair : (L.filter p).Pairwise (fun a b => scoreLe a b = true) := by
    apply pairwise_of_mem_all
    intro a ha b hb
    exact decide_eq_true (le_of_eq ((hmem b hb).trans (hmem a ha).symm))
  have hsub : List.Sublist (L.filter p) (L.mergeSort scoreLe) :=
    List.sublist_mergeSort scoreLe_trans scoreLe_total hpair (List.filter_sublist L)
  have hsub2 : List.Sublist (L.filter p) ((L.mergeSort scoreLe).filter p) := by
    have h1 : (L.filter p).filter p = L.filter p :=
      List.filter_eq_self.mpr (fun a ha => List.of_mem_filter ha)
    have h2 := hsub.filter p
    rwa [h1] at h2
  have hlen : ((L.mergeSort scoreLe).filter p).length = (L.filter p).length :=
    ((List.mergeSort_perm L scoreLe).filter p).length_eq
  exact (hsub2.eq_of_length hlen.symm).symm

/-- C4: `search_tree` returns at most `limit` results, each scoring at
least `threshold`; results are sorted by non-increasing score; within one
score class the output order is the pre-order walk order (the filtered
output extends to the filtered walk); and every returned node has its
children removed. -/
theorem claim_C4 (tree : NodeList) (query role name state : Option String)
    (limit : Nat) (threshold : Rat) :
    (search_tree tree query role name state limit threshold).length ≤ limit
    ∧ (∀ r ∈ search_tree tree query role name state limit threshold,
        threshold ≤ r.score)
    ∧ (search_tree tree query role name state limit threshold).Pairwise
        (fun a b => b.score ≤ a.score)
    ∧ (∀ s : Rat, ∃ rest,
        (search_tree tree query role name state limit threshold).filter
            (fun r => decide (r.score = s)) ++ rest
          = (search_walked tree query role name state threshold).filter
              (fun r => decide (r.score = s)))
    ∧ (∀ r ∈ search_tree tree query role name state limit threshold,
        r.node.children = NodeList.nil) := by
  set W := search_walked tree query role name state threshold with hW
  have hmemW : ∀ r ∈ search_tree tree query role name state limit threshold, r ∈ W := by
    intro r hr
    exact List.mem_mergeSort.mp (List.mem_of_mem_take hr)
  refine ⟨List.length_take_le _ _, ?_, ?_, ?_, ?_⟩
  · intro r hr
    exact (walk_list_sound tree [] _ _ state threshold r (hmemW r hr)).1
  · have hs : (W.mergeSort scoreLe).Pairwise (fun a b => scoreLe a b = true) :=
      List.sorted_mergeSort scoreLe_trans scoreLe_total W
    have := hs.sublist (List.take_sublist limit _)
    exact this.imp (fun h => of_decide_eq_true h)
  · intro s
    refine ⟨((W.mergeSort scoreLe).drop limit).filter (fun r => decide (r.score = s)), ?_⟩
    show ((W.mergeSort scoreLe).take limit).filter _ ++ _ = _
    rw [← List.filter_append, List.take_append_drop, filter_mergeSort_eq]
  · intro r hr
    exact (walk_list_sound tree [] _ _ state threshold r (hmemW r hr)).2

unseal Rat.mul Rat.add Rat.inv Rat.sub in
/-- Witness for C4: on a one-button tree with a role filter the single
result is the stripped button at score 3/5, which clears the default
threshold and has no children. -/
theorem claim_C4_witness :
    (⟨mkNodeF "e0" "button" "OK" ["click", "focus"] none [], 3/5⟩ : SearchResult)
        ∈ search_tree c4_tree none (some "button") none none 5 (15/100)
    ∧ (15 : Rat)/100
        ≤ (⟨mkNodeF "e0" "button" "OK" ["click", "focus"] none [], 3/5⟩ : SearchResult).score
    ∧ (⟨mkNodeF "e0" "button" "OK" ["click", "focus"] none [], 3/5⟩
        : SearchResult).node.children = NodeList.nil :=
  have hwalk : search_walked c4_tree none (some "button") none none (15/100)
      = [⟨mkNodeF "e0" "button" "OK" ["click", "focus"] none [], 3/5⟩] := by decide
  have hmem : (⟨mkNodeF "e0" "button" "OK" ["click", "focus"] none [], 3/5⟩ : SearchResult)
      ∈ search_tree c4_tree none (some "button") none none 5 (15/100) := by
    unfold search_tree
    rw [hwalk]
    simp
  ⟨hmem,
   (claim_C4 c4_tree none (some "button") none none 5 (15/100)).2.1 _ hmem,
   (claim_C4 c4_tree none (some "button") none none 5 (15/100)).2.2.2.2 _ hmem⟩

/-! ## Claim C10 — searching without filters returns nothing -/

/-- With no query tokens and no role filter, only the three context
bonuses contribute, at most 1/20 + 1/20 + 1/50 = 12/100. -/
theorem score_context_nofilter_le (n : Node) (pc : List Node) :
    score_context n pc [] none ≤ 3/25 := by
  unfold score_context
  norm_num
  split_ifs <;> norm_num

theorem score_node_nofilter_le (n : Node) (pc : List Node) :
    score_node n pc none [] none ≤ 3/25 := by
  unfold score_node
  norm_num
  exact score_context_nofilter_le n pc

mutual
theorem walk_node_nofilter : (n : Node) → ∀ pc,
    walk_node n pc none [] none (15/100) = []
  | .mk i ro nm d v sts acts bd a cl cs, pc => by
    have hneg : ¬ ((15 : Rat)/100
        ≤ score_node (Node.mk i ro nm d v sts acts bd a cl cs) pc none [] none) := by
      intro h
      have h2 := le_trans h
        (score_node_nofilter_le (Node.mk i ro nm d v sts acts bd a cl cs) pc)
      norm_num at h2
    rw [walk_node, if_neg hneg, walk_list_nofilter cs]
    rfl

theorem walk_list_nofilter : (cs : NodeList) → ∀ pc,
    walk_list cs pc none [] none (15/100) = []
  | .nil, _ => rfl
  | .cons n ns, pc => by
    rw [walk_list, walk_node_nofilter n, walk_list_nofilter ns]
    rfl
end

/-- C10: with no query, role, name or state filter, `search_tree` at the
default threshold 0.15 returns the empty list for every tree — the only
score contributions are the context bonuses, whose maximum 0.12 falls
short of 0.15. -/
theorem claim_C10 (tree : NodeList) :
    search_tree tree none none none none 5 (15/100) = [] := by
  have hw : search_walked tree none none none none (15/100) = [] := by
    have hprep : search_prep none none none = (none, []) := rfl
    unfold search_walked
    rw [hprep]
    exact walk_list_nofilter tree []
  unfold search_tree
  rw [hw]
  simp

/-! ## Claim C7 — key-combo parsing -/

theorem comboFold_inv : (l : List String) → ∀ m k,
    m.all (fun x => MODIFIER4.contains x) = true →
    k.all (fun x => !MODIFIER4.contains x) = true →
    ((l.foldl comboStep (m, k)).1.all (fun x => MODIFIER4.contains x) = true
      ∧ (l.foldl comboStep (m, k)).2.all (fun x => !MODIFIER4.contains x) = true)
  | [], m, k, hm, hk => ⟨hm, hk⟩
  | p :: t, m, k, hm, hk => by
    rw [List.foldl_cons]
    by_cases hmod : MODIFIER4.contains (aliasOf p)
    · have hstep : comboStep (m, k) p = (m ++ [aliasOf p], k) := by
        unfold comboStep
        rw [if_pos hmod]
      rw [hstep]
      refine comboFold_inv t _ _ ?_ hk
      simp only [List.all_append, hm, List.all_cons, List.all_nil,
        Bool.true_and, Bool.and_true]
      exact hmod
    · have hstep : comboStep (m, k) p = (m, k ++ [aliasOf p]) := by
        unfold comboStep
        rw [if_neg hmod]
      rw [hstep]
      refine comboFold_inv t _ _ hm ?_
      simp only [List.all_append, hk, List.all_cons, List.all_nil,
        Bool.true_and, Bool.and_true]
      cases hc : MODIFIER4.contains (aliasOf p) with
      | false => rfl
      | true => exact absurd hc hmod

/-- C7: `parse_combo` splits on `+`, lowercases, normalises aliases and
classifies exactly ctrl/alt/shift/meta as modifiers: every returned
modifier is one of the four and no returned key is; the worked examples
hold, including every alias; and in `_send_key_combo` a modifier-only
combo such as "meta" is re-classified as a main-key press. -/
theorem claim_C7 :
    (∀ combo : String,
      (parse_combo combo).1.all (fun x => MODIFIER4.contains x) = true
      ∧ (parse_combo combo).2.all (fun x => !MODIFIER4.contains x) = true)
    ∧ parse_combo "Ctrl+Shift+P" = (["ctrl", "shift"], ["p"])
    ∧ parse_combo " ctrl + s " = (["ctrl"], ["s"])
    ∧ parse_combo "return" = ([], ["enter"])
    ∧ parse_combo "esc" = ([], ["escape"])
    ∧ parse_combo "del" = ([], ["delete"])
    ∧ parse_combo "bs" = ([], ["backspace"])
    ∧ parse_combo "pgup" = ([], ["pageup"])
    ∧ parse_combo "pgdn" = ([], ["pagedown"])
    ∧ parse_combo "pgdown" = ([], ["pagedown"])
    ∧ parse_combo "cmd+c" = (["meta"], ["c"])
    ∧ parse_combo "win+e" = (["meta"], ["e"])
    ∧ parse_combo "super+x" = (["meta"], ["x"])
    ∧ send_key_combo_resolve "meta" = ([], [0x5B])
    ∧ send_key_combo_resolve "win" = ([], [0x5B])
    ∧ send_key_combo_resolve "ctrl+s" = ([0xA2], [0x53]) := by
  refine ⟨?_, ?_, ?_, ?_, ?_, ?_, ?_, ?_, ?_, ?_, ?_, ?_, ?_, ?_, ?_, ?_⟩
  · intro combo
    exact comboFold_inv _ [] [] rfl rfl
  all_goals decide

/-! ## Claims C1 and C5 — public action entry points -/

/-- C1 (refuted: code bug): the executor-level dispatcher
`ActionExecutor.execute` is total and turns invalid input into failure
results, but the public `Session.action`, `Session.press` and
`Session.open_app` raise `AttributeError` for every input — they call
executor attributes named `action`, `press` and `open_app`, while
`ActionExecutor` defines `execute`, `press_keys` and `launch_app`. -/
theorem claim_C1 :
    (∀ hE hP refs eid act ps,
      sessionAction hE hP refs eid act ps
        = .error (.attributeError "ActionExecutor" "action"))
    ∧ (∀ hP combo,
      sessionPress hP combo = .error (.attributeError "ActionExecutor" "press"))
    ∧ (∀ hL nm,
      sessionOpenApp hL nm = .error (.attributeError "ActionExecutor" "open_app"))
    ∧ (∀ hE hP refs eid act ps, VALID_ACTIONS.contains act = false →
        (executorExecute hE hP refs eid act ps).success = false)
    ∧ (∀ hE hP refs eid ps, refs.contains eid = false →
        (executorExecute hE hP refs eid "click" ps).success = false) := by
  refine ⟨fun hE hP refs eid act ps => rfl, fun hP combo => rfl,
    fun hL nm => rfl, ?_, ?_⟩
  · intro hE hP refs eid act ps h
    unfold executorExecute
    rw [if_pos (by rw [h]; rfl)]
  · intro hE hP refs eid ps h
    unfold executorExecute
    rw [if_neg (by decide), if_neg (by decide), if_pos (by rw [h]; rfl)]

/-- Witness for C1: a concrete unknown action and a concrete missing ref
are rejected as failure results by the executor dispatcher. -/
theorem claim_C1_witness :
    (VALID_ACTIONS.contains "fly" = false
      ∧ (executorExecute (fun _ _ _ => .ok ⟨true, "ok", none⟩)
          (fun _ => .ok ⟨true, "ok", none⟩) ["e0"] "e0" "fly" []).success = false)
    ∧ (([] : List String).contains "e9" = false
      ∧ (executorExecute (fun _ _ _ => .ok ⟨true, "ok", none⟩)
          (fun _ => .ok ⟨true, "ok", none⟩) [] "e9" "click" []).success = false) :=
  ⟨⟨by decide, claim_C1.2.2.2.1 (fun _ _ _ => .ok ⟨true, "ok", none⟩)
      (fun _ => .ok ⟨true, "ok", none⟩) ["e0"] "e0" "fly" [] (by decide)⟩,
   ⟨by decide, claim_C1.2.2.2.2 (fun _ _ _ => .ok ⟨true, "ok", none⟩)
      (fun _ => .ok ⟨true, "ok", none⟩) [] "e9" [] (by decide)⟩⟩

/-- C5 (refuted: code bug): the wait clamp into [50, 5000] holds and a
wait-only batch returns one success per record in order, but any record
dispatched through `Session.press` or `Session.action` raises
`AttributeError` out of `Session.batch`, so such batches return no
result list at all. -/
theorem claim_C5 :
    (∀ ms : Int, 50 ≤ waitClamp ms ∧ waitClamp ms ≤ 5000)
    ∧ (∀ hE hP refs (l : List BatchSpec), (∀ s ∈ l, s.action = "wait") →
        ∃ rs, sessionBatch hE hP refs l = .ok rs
          ∧ rs.length = l.length ∧ ∀ r ∈ rs, r.success = true)
    ∧ (∀ hE hP refs eid act ps ms rest,
        act ≠ "wait" → act ≠ "press" → eid ≠ "" →
        sessionBatch hE hP refs (⟨act, ms, "", eid, ps⟩ :: rest)
          = .error (.attributeError "ActionExecutor" "action"))
    ∧ (∀ hE hP refs keys ms rest, keys ≠ "" →
        sessionBatch hE hP refs (⟨"press", ms, keys, "", []⟩ :: rest)
          = .error (.attributeError "ActionExecutor" "press")) := by
  refine ⟨?_, ?_, ?_, ?_⟩
  · intro ms
    unfold waitClamp
    omega
  · intro hE hP refs l
    induction l with
    | nil =>
      intro _
      exact ⟨[], rfl, rfl, fun r hr => absurd hr (List.not_mem_nil r)⟩
    | cons s t ih =>
      intro hall
      have hs : s.action = "wait" := hall s (.head t)
      obtain ⟨rs, hrs, hlen, hsucc⟩ := ih (fun x hx => hall x (.tail s hx))
      refine ⟨⟨true, "Waited " ++ intStr (waitClamp (s.ms.getD 500)) ++ "ms", none⟩
        :: rs, ?_, ?_, ?_⟩
      · show sessionBatch hE hP refs (s :: t) = _
        unfold sessionBatch
        rw [hs, if_pos rfl]
        simp only []
        rw [hrs]
        simp
      · simp [hlen]
      · intro r hr
        rcases List.mem_cons.mp hr with rfl | hmem
        · rfl
        · exact hsucc r hmem
  · intro hE hP refs eid act ps ms rest h1 h2 h3
    unfold sessionBatch
    rw [if_neg h1, if_neg h2, if_neg h3]
    rfl
  · intro hE hP refs keys ms rest h
    unfold sessionBatch
    rw [if_neg (fun hx => by simp at hx), if_pos rfl, if_neg h]
    rfl

/-- Witness for C5: a concrete wait-only batch succeeds while a concrete
click record and a concrete press record each raise out of the batch. -/
theorem claim_C5_witness :
    (∃ rs, sessionBatch (fun _ _ _ => .ok ⟨true, "ok", none⟩)
        (fun _ => .ok ⟨true, "ok", none⟩) []
        [⟨"wait", some 20, "", "", []⟩] = .ok rs
      ∧ rs.length = 1 ∧ ∀ r ∈ rs, r.success = true)
    ∧ sessionBatch (fun _ _ _ => .ok ⟨true, "ok", none⟩)
        (fun _ => .ok ⟨true, "ok", none⟩) ["e1"]
        [⟨"click", none, "", "e1", []⟩]
        = .error (.attributeError "ActionExecutor" "action")
    ∧ sessionBatch (fun _ _ _ => .ok ⟨true, "ok", none⟩)
        (fun _ => .ok ⟨true, "ok", none⟩) []
        [⟨"press", none, "ctrl+s", "", []⟩]
        = .error (.attributeError "ActionExecutor" "press") :=
  ⟨claim_C5.2.1 (fun _ _ _ => .ok ⟨true, "ok", none⟩)
      (fun _ => .ok ⟨true, "ok", none⟩) [] [⟨"wait", some 20, "", "", []⟩]
      (by decide),
   claim_C5.2.2.1 (fun _ _ _ => .ok ⟨true, "ok", none⟩)
      (fun _ => .ok ⟨true, "ok", none⟩) ["e1"] "e1" "click" [] none []
      (by decide) (by decide) (by decide),
   claim_C5.2.2.2 (fun _ _ _ => .ok ⟨true, "ok", none⟩)
      (fun _ => .ok ⟨true, "ok", none⟩) [] "ctrl+s" none []
      (by decide)⟩

end CUP
